import Mathlib

/-!
# TradeBuddy: the gift-trade bot of `src/index.js`

A shallow embedding of the class `SteamTradeBot` and of the configuration in
`src/config.js`.

* Strings are Lean strings; the few JavaScript string primitives the program
  uses (`String.prototype.replace` with a one-character pattern, `parseFloat`,
  `Number.prototype.toFixed`) are written over lists of characters.
* Numbers: the program only ever parses decimal text, adds, compares with zero
  and prints with two decimals.  A number is `NaN`, an infinity, or an exact
  decimal `num / 10 ^ scale`.  Binary rounding of IEEE doubles, overflow to
  infinity of huge exponents and the sign of zero are outside the model.
* External actions (accepting and declining an offer, posting a profile
  comment, the market price request, the webhook post, the clock) are answered
  by a `World`; every call made, every console line and the entry into the
  bot's own decision methods are recorded, in order, in a trace.
* A JavaScript exception is the `threw` result of a computation.
-/

namespace TradeBuddy

/-! ## JavaScript numbers and strings -/

/-- The exact decimal `num / 10 ^ scale`. -/
structure Dec where
  num : Int
  scale : Nat
deriving DecidableEq, Repr

/-- A JavaScript number as far as the program can tell numbers apart. -/
inductive JSNum where
  | nan
  | posInf
  | negInf
  | fin (d : Dec)
deriving DecidableEq, Repr

namespace Dec

/-- The decimal zero, the initial value of `total`. -/
def zero : Dec := ⟨0, 0⟩

/-- Exact sum of two decimals, on the larger of the two scales. -/
def add (a b : Dec) : Dec :=
  let k := max a.scale b.scale
  ⟨a.num * 10 ^ (k - a.scale) + b.num * 10 ^ (k - b.scale), k⟩

/-- The rational number a decimal stands for. -/
def toRat (a : Dec) : ℚ := (a.num : ℚ) / (10 : ℚ) ^ a.scale

end Dec

namespace JSNum

/-- The JavaScript `isNaN` on a number. -/
def isNaN : JSNum → Bool
  | nan => true
  | _ => false

/-- The JavaScript `+` on numbers. -/
def add : JSNum → JSNum → JSNum
  | nan, _ => nan
  | _, nan => nan
  | posInf, negInf => nan
  | negInf, posInf => nan
  | posInf, _ => posInf
  | _, posInf => posInf
  | negInf, _ => negInf
  | _, negInf => negInf
  | fin a, fin b => fin (a.add b)

/-- The JavaScript comparison `x > 0`. -/
def gtZero : JSNum → Bool
  | nan => false
  | posInf => true
  | negInf => false
  | fin d => decide (0 < d.num)

end JSNum

/-- The characters `parseFloat` skips at the start of its argument
(JavaScript white space and line terminators). -/
def isStrWhiteSpace (c : Char) : Bool :=
  let n := c.toNat
  n = 9 || n = 10 || n = 11 || n = 12 || n = 13 || n = 32 || n = 160 ||
  n = 5760 || (8192 ≤ n && n ≤ 8202) || n = 8232 || n = 8233 || n = 8239 ||
  n = 8287 || n = 12288 || n = 65279

/-- Value of a decimal digit character, if it is one. -/
def digitVal (c : Char) : Option Nat :=
  if 48 ≤ c.toNat ∧ c.toNat ≤ 57 then some (c.toNat - 48) else none

/-- Reads the longest run of decimal digits at the start of `cs`, continuing
the number `acc`; returns the number read, how many digits were read and the
remaining characters. -/
def takeDigits : List Char → Nat → Nat → Nat × Nat × List Char
  | [], acc, n => (acc, n, [])
  | c :: cs, acc, n =>
    match digitVal c with
    | some d => takeDigits cs (acc * 10 + d) (n + 1)
    | none => (acc, n, c :: cs)

/-- The exponent part of a decimal literal (`e` or `E`, an optional sign, at
least one digit) at the start of `cs`; `0` when there is none. -/
def exponentPart : List Char → Int
  | c :: cs =>
    if c = 'e' ∨ c = 'E' then
      match cs with
      | '+' :: ds =>
        let r := takeDigits ds 0 0
        if r.2.1 = 0 then 0 else (r.1 : Int)
      | '-' :: ds =>
        let r := takeDigits ds 0 0
        if r.2.1 = 0 then 0 else -(r.1 : Int)
      | ds =>
        let r := takeDigits ds 0 0
        if r.2.1 = 0 then 0 else (r.1 : Int)
    else 0
  | [] => 0

/-- The decimal `m * 10 ^ e / 10 ^ k`, exact for every exponent: a double
overflows to an infinity or underflows to zero where this value does not. -/
def mkDec (m : Int) (k : Nat) (e : Int) : Dec :=
  if 0 ≤ e then ⟨m * 10 ^ e.toNat, k⟩ else ⟨m, k + (-e).toNat⟩

/-- The unsigned part of `parseFloat`: `Infinity`, or the longest prefix that
is a decimal literal (digits, an optional fraction, an optional exponent; or
a dot followed by digits), with the sign `sgn` applied.  `NaN` when no prefix
is a literal. -/
def parseUnsigned (sgn : Int) (cs : List Char) : JSNum :=
  if "Infinity".toList.isPrefixOf cs then
    (if sgn < 0 then JSNum.negInf else JSNum.posInf)
  else
    let ip := takeDigits cs 0 0
    match ip.2.2 with
    | '.' :: rest =>
      let fp := takeDigits rest ip.1 0
      if ip.2.1 = 0 ∧ fp.2.1 = 0 then JSNum.nan
      else JSNum.fin (mkDec (sgn * (fp.1 : Int)) fp.2.1 (exponentPart fp.2.2))
    | rest =>
      if ip.2.1 = 0 then JSNum.nan
      else JSNum.fin (mkDec (sgn * (ip.1 : Int)) 0 (exponentPart rest))

/-- The JavaScript `parseFloat` on the characters of a string. -/
def parseFloatChars (cs : List Char) : JSNum :=
  match cs.dropWhile isStrWhiteSpace with
  | '+' :: rest => parseUnsigned 1 rest
  | '-' :: rest => parseUnsigned (-1) rest
  | rest => parseUnsigned 1 rest

/-- The JavaScript `parseFloat`. -/
def parseFloat (s : String) : JSNum := parseFloatChars s.toList

/-- Removes the first occurrence of the character `c`. -/
def removeFirst (c : Char) : List Char → List Char
  | [] => []
  | x :: xs => if x = c then xs else x :: removeFirst c xs

/-- The call `price.replace('$', '')` of `calculateTotalValue`: the first
dollar sign is removed, later ones stay. -/
def replaceDollar (price : String) : String := ⟨removeFirst '$' price.toList⟩

/-- The decimal digits of `n`, most significant first, `fuel` bounding their
number. -/
def digitsAux : Nat → Nat → List Char → List Char
  | 0, _, acc => acc
  | fuel + 1, n, acc =>
    let acc1 := Char.ofNat (48 + n % 10) :: acc
    if n / 10 = 0 then acc1 else digitsAux fuel (n / 10) acc1

/-- The decimal digits of a natural number. -/
def natDigits (n : Nat) : List Char := digitsAux (n + 1) n []

/-- The decimal text of a natural number, as in a template literal. -/
def natToString (n : Nat) : String := ⟨natDigits n⟩

/-- The integer nearest to `|d| * 100`, the larger one on a tie: the `n` of
`Number.prototype.toFixed(2)`. -/
def hundredths (d : Dec) : Nat :=
  (2 * 100 * d.num.natAbs + 10 ^ d.scale) / (2 * 10 ^ d.scale)

/-- The text of `n` hundredths with two decimals. -/
def fixedDigits (n : Nat) : List Char :=
  natDigits (n / 100) ++ ['.', Char.ofNat (48 + n / 10 % 10), Char.ofNat (48 + n % 10)]

/-- The JavaScript `x.toFixed(2)`, for `|x| < 10 ^ 21` (beyond that JavaScript
switches to exponent notation, which the exact model does not reproduce). -/
def toFixed2 : JSNum → String
  | JSNum.nan => "NaN"
  | JSNum.posInf => "Infinity"
  | JSNum.negInf => "-Infinity"
  | JSNum.fin d =>
    ⟨(if d.num < 0 then ['-'] else []) ++ fixedDigits (hundredths d)⟩

/-- The JavaScript `a || b` for a value that is a string or undefined: the
undefined value and the empty string are falsy. -/
def orElse (a : Option String) (b : String) : String :=
  match a with
  | some s => if s = "" then b else s
  | none => b

/-! ## Data model -/

/-- A thrown JavaScript value, kept as the text that describes it. -/
abbrev Err := String

/-- An item of a trade offer.  `name` and `icon_url` may be missing. -/
structure Item where
  appid : Nat
  market_hash_name : String
  name : Option String
  icon_url : Option String
deriving DecidableEq, Repr

/-- A trade offer as the handler reads it.  A field that is `none` is one
whose read throws (`offer.partner.toString()` on a missing partner, `.length`
or `.every` on a missing item list). -/
structure Offer where
  id : String
  partner : Option String
  itemsToGive : Option (List Item)
  itemsToReceive : Option (List Item)
deriving DecidableEq, Repr

/-- The parts of `config.js` the handler reads. -/
structure Config where
  adminID : String
  webhookUrl : String
  botName : String
  botAvatar : String
deriving DecidableEq, Repr

/-- The values of `src/config.js`. -/
def config : Config :=
  { adminID := "your_steam_admin_id"
    webhookUrl := "your_discord_webhook_url"
    botName := "Steam Trade Bot"
    botAvatar := "url_to_bot_avatar" }

/-- The field `this.acceptedGames` set in the constructor, in key order. -/
def acceptedGames : List (String × Nat) :=
  [("CSGO", 730), ("DOTA2", 570), ("RUST", 252490)]

/-- The method `isValidGameItem`:
`Object.values(this.acceptedGames).includes(appid)`. -/
def isValidGameItem (appid : Nat) : Bool :=
  (acceptedGames.map Prod.snd).contains appid

/-- The method `getGameName`: the first key of `acceptedGames` whose value is
`appid`, or `'Unknown Game'`. -/
def getGameName (appid : Nat) : String :=
  orElse ((acceptedGames.map Prod.fst).find?
    (fun key => acceptedGames.lookup key == some appid)) "Unknown Game"

/-- One field of the embed. -/
structure EmbedField where
  name : String
  value : String
deriving DecidableEq, Repr

/-- The embed built by `sendDiscordNotification`. -/
structure Embed where
  title : String
  color : Nat
  fields : List EmbedField
  timestamp : String
  footer : String
  thumbnail : Option String
deriving DecidableEq, Repr

/-- The body posted to the webhook. -/
structure Payload where
  username : String
  avatar_url : String
  embeds : List Embed
deriving DecidableEq, Repr

/-- What the market price request can come back with. -/
inductive PriceResponse where
  /-- The request itself failed. -/
  | networkError (e : Err)
  /-- A response whose `data` is undefined: reading a field of it throws. -/
  | noBody
  /-- A response with a body; `lowest_price` is the field, if present. -/
  | body (lowest_price : Option String)
deriving DecidableEq, Repr

/-- An entry of the trace. -/
inductive Event where
  /-- The call `offer.accept()`. -/
  | accept
  /-- The call `offer.decline()`. -/
  | decline
  /-- The call `community.postUserComment(steamID, text)`. -/
  | postUserComment (steamID : String) (text : String)
  /-- The price request of `getItemPrice`. -/
  | priceRequest (appid : Nat) (marketHashName : String)
  /-- The call `axios.post(url, payload)`. -/
  | webhookPost (url : String) (payload : Payload)
  /-- A line of `console.log`. -/
  | log (text : String)
  /-- A line of `console.error` with the error printed. -/
  | error (text : String) (e : Err)
  /-- Entry into the method `isGiftTrade`. -/
  | isGiftTrade
  /-- Entry into the method `isValidGameItem`. -/
  | isValidGameItem (appid : Nat)
  /-- Entry into the method `acceptGiftTrade`. -/
  | acceptGiftTrade
  /-- Entry into the method `sendDiscordNotification`. -/
  | sendDiscordNotification (isAdmin : Bool)
deriving DecidableEq, Repr

/-- The answers of the outside world during one run of the handler.  `accept`,
the comment and the webhook are called at most once in a run; `decline` and the
price request can be called several times, and are answered by call number. -/
structure World where
  /-- The error `offer.accept()` fails with, if it fails. -/
  acceptError : Option Err
  /-- The error the `n`-th `offer.decline()` fails with, if it fails. -/
  declineError : Nat → Option Err
  /-- The error `postUserComment` fails with, if it fails. -/
  commentError : Option Err
  /-- The response to the `n`-th price request. -/
  priceResponse : Nat → PriceResponse
  /-- The error `axios.post` fails with, if it fails. -/
  webhookError : Option Err
  /-- The text of `new Date()`. -/
  now : String

/-- The state threaded through a run: the trace so far and the number of
`decline` calls and of price requests made. -/
structure St where
  trace : List Event
  declines : Nat
  lookups : Nat
deriving DecidableEq, Repr

/-- The state before the handler starts. -/
def St.init : St := ⟨[], 0, 0⟩

/-- The result of running a computation: a value, or a thrown error, with the
state reached. -/
inductive Res (α : Type) where
  | ok (a : α) (s : St)
  | threw (e : Err) (s : St)

/-- The state a result was reached in. -/
def Res.state {α : Type} : Res α → St
  | Res.ok _ s => s
  | Res.threw _ s => s

/-- The trace of a result. -/
def Res.trace {α : Type} (r : Res α) : List Event := r.state.trace

/-- Whether the computation returned rather than threw: for an `async`
method, whether its promise is fulfilled rather than rejected. -/
def Res.completed {α : Type} : Res α → Bool
  | Res.ok _ _ => true
  | Res.threw _ _ => false

/-- The value a computation returned, if it returned. -/
def Res.returned {α : Type} : Res α → Option α
  | Res.ok a _ => some a
  | Res.threw _ _ => none

/-- A computation of the bot: a function of the state to a result. -/
def M (α : Type) : Type := St → Res α

/-- Returning a value. -/
def M.pure {α : Type} (a : α) : M α := fun s => Res.ok a s

/-- Sequencing: an error of the first part skips the rest. -/
def M.bind {α β : Type} (x : M α) (f : α → M β) : M β := fun s =>
  match x s with
  | Res.ok a s1 => f a s1
  | Res.threw e s1 => Res.threw e s1

/-- The JavaScript `throw`. -/
def M.throw {α : Type} (e : Err) : M α := fun s => Res.threw e s

/-- The JavaScript `try ... catch (e) ...`. -/
def M.tryCatch {α : Type} (x : M α) (h : Err → M α) : M α := fun s =>
  match x s with
  | Res.ok a s1 => Res.ok a s1
  | Res.threw e s1 => h e s1

instance : Monad M where
  pure := M.pure
  bind := M.bind

instance : MonadExcept Err M where
  throw := M.throw
  tryCatch := M.tryCatch

/-- Appends an entry to the trace. -/
def emit (e : Event) : M Unit := fun s =>
  Res.ok () { s with trace := s.trace ++ [e] }

/-! ## External actions -/

/-- The expression `offer.partner.toString()`. -/
def partnerToString (offer : Offer) : M String :=
  match offer.partner with
  | some p => pure p
  | none => throw "TypeError: cannot read properties of undefined (reading 'toString')"

/-- A read of `offer.itemsToGive` that goes on to use the list. -/
def readItemsToGive (offer : Offer) : M (List Item) :=
  match offer.itemsToGive with
  | some l => pure l
  | none => throw "TypeError: cannot read properties of undefined (itemsToGive)"

/-- A read of `offer.itemsToReceive` that goes on to use the list. -/
def readItemsToReceive (offer : Offer) : M (List Item) :=
  match offer.itemsToReceive with
  | some l => pure l
  | none => throw "TypeError: cannot read properties of undefined (itemsToReceive)"

/-- The awaited call `offer.accept()`. -/
def offerAccept (w : World) : M Unit := fun s =>
  let s1 : St := { s with trace := s.trace ++ [Event.accept] }
  match w.acceptError with
  | some e => Res.threw e s1
  | none => Res.ok () s1

/-- The awaited call `offer.decline()`. -/
def offerDecline (w : World) : M Unit := fun s =>
  let s1 : St := { s with trace := s.trace ++ [Event.decline], declines := s.declines + 1 }
  match w.declineError s.declines with
  | some e => Res.threw e s1
  | none => Res.ok () s1

/-- The awaited call `this.community.postUserComment(steamID, text)`. -/
def postUserComment (w : World) (steamID text : String) : M Unit := fun s =>
  let s1 : St := { s with trace := s.trace ++ [Event.postUserComment steamID text] }
  match w.commentError with
  | some e => Res.threw e s1
  | none => Res.ok () s1

/-- The awaited call `axios.get(...)` of `getItemPrice`. -/
def axiosGet (w : World) (appid : Nat) (marketHashName : String) : M PriceResponse := fun s =>
  let s1 : St :=
    { s with trace := s.trace ++ [Event.priceRequest appid marketHashName],
             lookups := s.lookups + 1 }
  match w.priceResponse s.lookups with
  | PriceResponse.networkError e => Res.threw e s1
  | r => Res.ok r s1

/-- The expression `response.data.lowest_price`. -/
def lowestPrice : PriceResponse → M (Option String)
  | PriceResponse.body lp => pure lp
  | _ => throw "TypeError: cannot read properties of undefined (reading 'lowest_price')"

/-- The awaited call `axios.post(config.discord.webhookUrl, payload)`. -/
def axiosPost (w : World) (url : String) (payload : Payload) : M Unit := fun s =>
  let s1 : St := { s with trace := s.trace ++ [Event.webhookPost url payload] }
  match w.webhookError with
  | some e => Res.threw e s1
  | none => Res.ok () s1

/-! ## The methods of `SteamTradeBot` -/

/-- The method `getItemPrice`. -/
def getItemPrice (w : World) (appid : Nat) (marketHashName : String) : M String := do
  try
    let response ← axiosGet w appid marketHashName
    let lp ← lowestPrice response
    pure (orElse lp "No price data")
  catch error =>
    emit (Event.error ("Error fetching price for " ++ marketHashName ++ ":") error)
    pure "Price unavailable"

/-- The method `isGiftTrade`:
`offer.itemsToGive.length === 0 && offer.itemsToReceive.length > 0`. -/
def isGiftTrade (offer : Offer) : M Bool := do
  emit Event.isGiftTrade
  let give ← readItemsToGive offer
  if give.length = 0 then
    let recv ← readItemsToReceive offer
    pure (decide (recv.length > 0))
  else
    pure false

/-- The call `items.every(item => this.isValidGameItem(item.appid))`: it
stops at the first item that fails. -/
def everyValid : List Item → M Bool
  | [] => pure true
  | item :: rest => do
    emit (Event.isValidGameItem item.appid)
    if isValidGameItem item.appid then everyValid rest else pure false

/-- The body of the loop of `calculateTotalValue` once the price is known:
the new value of `total`. -/
def addPrice (total : JSNum) (price : String) : JSNum :=
  if price ≠ "Price unavailable" ∧ price ≠ "No price data" then
    let priceNumber := parseFloat (replaceDollar price)
    if !priceNumber.isNaN then total.add priceNumber else total
  else total

/-- The loop `for (const item of items)` of `calculateTotalValue`. -/
def totalLoop (w : World) : List Item → JSNum → M JSNum
  | [], total => pure total
  | item :: rest, total => do
    let price ← getItemPrice w item.appid item.market_hash_name
    totalLoop w rest (addPrice total price)

/-- The last line of `calculateTotalValue`. -/
def formatTotal (total : JSNum) : String :=
  if total.gtZero then "$" ++ toFixed2 total else "Unable to calculate total"

/-- The method `calculateTotalValue`. -/
def calculateTotalValue (w : World) (items : List Item) : M String := do
  let total ← totalLoop w items (JSNum.fin Dec.zero)
  pure (formatTotal total)

/-- The line of one received item in the notification. -/
def itemLine (item : Item) (price : String) : String :=
  "• " ++ orElse item.name "Unknown Item" ++ " (" ++ getGameName item.appid ++ ") - " ++ price

/-- The `Promise.all` over `offer.itemsToReceive.map(...)` of
`sendDiscordNotification`: the requests are issued in the order of the items
and the lines come back in that order.  The console line of a failed request
is recorded right after its request; when the requests really overlap, only
the place of these console lines in the trace can differ. -/
def itemLines (w : World) : List Item → M (List String)
  | [] => pure []
  | item :: rest => do
    let price ← getItemPrice w item.appid item.market_hash_name
    let lines ← itemLines w rest
    pure (itemLine item price :: lines)

/-- The call `lines.join('\n')`. -/
def joinLines : List String → String
  | [] => ""
  | [l] => l
  | l :: rest => l ++ "\n" ++ joinLines rest

/-- The thumbnail of the embed: set when the first received item has a
truthy `icon_url`. -/
def thumbnailOf (items : List Item) : Option String :=
  match items with
  | [] => none
  | item :: _ =>
    match item.icon_url with
    | some u =>
      if u = "" then none
      else some ("https://steamcommunity-a.akamaihd.net/economy/image/" ++ u)
    | none => none

/-- The object `embed` of `sendDiscordNotification`. -/
def buildEmbed (now offerId steamID : String) (isAdmin : Bool) (items : List Item)
    (itemsWithPrices : List String) (totalValue : String) : Embed :=
  { title := if isAdmin then "👑 Admin Trade Received!" else "🎁 New Gift Trade Received!"
    color := if isAdmin then 15844367 else 3066993
    fields :=
      [ { name := "Sender Information"
          value := "Steam ID: " ++ steamID ++ "\nProfile: [Click Here](" ++
            ("https://steamcommunity.com/profiles/" ++ steamID) ++ ")\nStatus: " ++
            (if isAdmin then "Admin" else "User") },
        { name := "Items Received (" ++ natToString items.length ++ ")"
          value := orElse (some (joinLines itemsWithPrices)) "No items" },
        { name := "Total Value", value := totalValue } ]
    timestamp := now
    footer := "Trade ID: " ++ offerId
    thumbnail := thumbnailOf items }

/-- The method `sendDiscordNotification`. -/
def sendDiscordNotification (cfg : Config) (w : World) (offer : Offer) (isAdmin : Bool) :
    M Unit := do
  emit (Event.sendDiscordNotification isAdmin)
  try
    let steamID ← partnerToString offer
    let items ← readItemsToReceive offer
    let itemsWithPrices ← itemLines w items
    let totalValue ← calculateTotalValue w items
    let embed := buildEmbed w.now offer.id steamID isAdmin items itemsWithPrices totalValue
    axiosPost w cfg.webhookUrl
      { username := cfg.botName, avatar_url := cfg.botAvatar, embeds := [embed] }
    emit (Event.log "Discord notification sent successfully")
  catch error =>
    emit (Event.error "Error sending Discord notification:" error)

/-- The method `acceptGiftTrade`. -/
def acceptGiftTrade (w : World) (offer : Offer) : M Unit := do
  emit Event.acceptGiftTrade
  try
    offerAccept w
    let items ← readItemsToReceive offer
    emit (Event.log ("Gift trade " ++ offer.id ++ " accepted - receiving " ++
      natToString items.length ++ " items"))
    (do
      try
        let steamID ← partnerToString offer
        postUserComment w steamID "Thanks for the gift! 🎁"
      catch commentError =>
        emit (Event.error "Error posting thank you comment:" commentError))
  catch error =>
    emit (Event.error "Error accepting gift trade:" error)
    throw error

/-- The method `handleNewOffer`.  Each `return` of the source ends its branch
of the conditional. -/
def handleNewOffer (cfg : Config) (w : World) (offer : Offer) : M Unit := do
  try
    let partner ← partnerToString offer
    let isAdmin : Bool := decide (partner = cfg.adminID)
    let sender ← partnerToString offer
    emit (Event.log ("Received trade offer " ++ offer.id ++ " from " ++ sender))
    if isAdmin then
      offerAccept w
      emit (Event.log ("Admin trade " ++ offer.id ++ " accepted automatically"))
      sendDiscordNotification cfg w offer true
    else
      let gift ← isGiftTrade offer
      if !gift then
        offerDecline w
        emit (Event.log ("Trade offer " ++ offer.id ++ " declined - not a gift trade"))
      else
        let items ← readItemsToReceive offer
        let validItems ← everyValid items
        if !validItems then
          offerDecline w
          emit (Event.log ("Trade offer " ++ offer.id ++
            " declined - contains items from unsupported games"))
        else
          acceptGiftTrade w offer
          sendDiscordNotification cfg w offer false
  catch error =>
    emit (Event.error "Error handling trade offer:" error)
    offerDecline w

/-- Runs the handler on a fresh state, as the `newOffer` listener does. -/
def run (cfg : Config) (w : World) (offer : Offer) : Res Unit :=
  handleNewOffer cfg w offer St.init

/-! ## What a run leaves in the trace

Closed forms of the trace entries and of the values the methods produce, used
to state what the methods do. -/

/-- What `getItemPrice` returns for a response of the price request. -/
def quoteOf : PriceResponse → String
  | PriceResponse.body lp => orElse lp "No price data"
  | _ => "Price unavailable"

/-- The error `getItemPrice` catches for a response, if any. -/
def lookupError : PriceResponse → Option Err
  | PriceResponse.networkError e => some e
  | PriceResponse.noBody =>
    some "TypeError: cannot read properties of undefined (reading 'lowest_price')"
  | PriceResponse.body _ => none

/-- The trace entries of one call of `getItemPrice`. -/
def lookupEvents (appid : Nat) (marketHashName : String) (r : PriceResponse) : List Event :=
  Event.priceRequest appid marketHashName ::
    (match lookupError r with
     | some e => [Event.error ("Error fetching price for " ++ marketHashName ++ ":") e]
     | none => [])

/-- The quotes `getItemPrice` returns for `items`, the first request being
number `k`. -/
def quotes (w : World) : Nat → List Item → List String
  | _, [] => []
  | k, _ :: rest => quoteOf (w.priceResponse k) :: quotes w (k + 1) rest

/-- The trace entries of the price lookups for `items`, the first request
being number `k`. -/
def lookupTrace (w : World) : Nat → List Item → List Event
  | _, [] => []
  | k, item :: rest =>
    lookupEvents item.appid item.market_hash_name (w.priceResponse k) ++
      lookupTrace w (k + 1) rest

/-- The entries a notification adds after its own entry: price requests, the
webhook post and console lines. -/
def Event.isReport : Event → Bool
  | Event.priceRequest _ _ => true
  | Event.webhookPost _ _ => true
  | Event.log _ => true
  | Event.error _ _ => true
  | _ => false

/-- The entries that belong to a notification: the entry into
`sendDiscordNotification`, price requests and the webhook post. -/
def Event.isNotify : Event → Bool
  | Event.sendDiscordNotification _ => true
  | Event.priceRequest _ _ => true
  | Event.webhookPost _ _ => true
  | _ => false

/-- The trace entries `sendDiscordNotification` adds after its own entry,
the first price request being number `k`. -/
def notificationEvents (cfg : Config) (w : World) (offer : Offer) (isAdmin : Bool)
    (k : Nat) : List Event :=
  match offer.partner, offer.itemsToReceive with
  | none, _ =>
    [Event.error "Error sending Discord notification:"
      "TypeError: cannot read properties of undefined (reading 'toString')"]
  | some _, none =>
    [Event.error "Error sending Discord notification:"
      "TypeError: cannot read properties of undefined (itemsToReceive)"]
  | some steamID, some items =>
    lookupTrace w k items ++ (lookupTrace w (k + items.length) items ++
      [Event.webhookPost cfg.webhookUrl
        { username := cfg.botName, avatar_url := cfg.botAvatar,
          embeds := [buildEmbed w.now offer.id steamID isAdmin items
            (List.zipWith itemLine items (quotes w k items))
            (formatTotal ((quotes w (k + items.length) items).foldl addPrice
              (JSNum.fin Dec.zero)))] },
       match w.webhookError with
       | none => Event.log "Discord notification sent successfully"
       | some e => Event.error "Error sending Discord notification:" e])

/-- The number of price requests made once `sendDiscordNotification` is done,
`k` having been made before. -/
def notificationLookups (offer : Offer) (k : Nat) : Nat :=
  match offer.partner, offer.itemsToReceive with
  | some _, some items => k + items.length + items.length
  | _, _ => k

/-- The trace entries of `everyValid`: one per item checked, up to and
including the first item that fails. -/
def validityChecks : List Item → List Event
  | [] => []
  | item :: rest =>
    Event.isValidGameItem item.appid ::
      (if isValidGameItem item.appid then validityChecks rest else [])

/-! ## The usable quote of the specification -/

/-- Whether a character is a decimal digit. -/
def isDigitChar (c : Char) : Bool := (digitVal c).isSome

/-- The usable quote in the words of the specification (sections 4.2 and
4.3): currency-prefixed decimal text such as `$12.34`, that is a dollar
sign, one or more digits, optionally a dot and one or more digits, and
nothing else, with a value above zero. -/
def specCleanPositiveDecimal (q : String) : Bool :=
  match q.toList with
  | '$' :: rest =>
    let whole := rest.takeWhile isDigitChar
    let tail := rest.dropWhile isDigitChar
    let fraction : Option (List Char) :=
      match tail with
      | [] => some []
      | '.' :: fp => if fp ≠ [] ∧ fp.all isDigitChar then some fp else none
      | _ => none
    match fraction with
    | some fp => !whole.isEmpty && (whole ++ fp).any (fun c => c ≠ '0')
    | none => false
  | _ => false

/-! ## Sample offers and worlds -/

/-- An item of game 730 offered to the bot. -/
def itemA : Item := ⟨730, "AK-47 | Redline (Field-Tested)", some "AK-47 | Redline", none⟩

/-- An item of the bot's own inventory. -/
def itemX : Item := ⟨570, "Inscribed Pudge Hook", some "Pudge Hook", none⟩

/-- An item of a game that is not accepted. -/
def item9999 : Item := ⟨9999, "Mystery Box", some "Mystery Box", none⟩

/-- A world in which every action succeeds and every item is quoted `$1.00`. -/
def calmWorld : World where
  acceptError := none
  declineError := fun _ => none
  commentError := none
  priceResponse := fun _ => PriceResponse.body (some "$1.00")
  webhookError := none
  now := "2024-01-01T00:00:00.000Z"

/-- A world in which both `accept` and `decline` fail. -/
def stormWorld : World where
  acceptError := some "Error: Not Logged In"
  declineError := fun _ => some "Error: Not Logged In"
  commentError := none
  priceResponse := fun _ => PriceResponse.body (some "$1.00")
  webhookError := none
  now := "2024-01-01T00:00:00.000Z"

/-- A world whose market quotes every item `$1,234.56`. -/
def thousandsWorld : World where
  acceptError := none
  declineError := fun _ => none
  commentError := none
  priceResponse := fun _ => PriceResponse.body (some "$1,234.56")
  webhookError := none
  now := "2024-01-01T00:00:00.000Z"

/-- A world with the quotes `$1.00`, a failed request, `$2.50`. -/
def mixedWorld : World where
  acceptError := none
  declineError := fun _ => none
  commentError := none
  priceResponse := fun n =>
    if n = 0 then PriceResponse.body (some "$1.00")
    else if n = 1 then PriceResponse.networkError "Error: timeout"
    else PriceResponse.body (some "$2.50")
  webhookError := none
  now := "2024-01-01T00:00:00.000Z"

/-- A world whose market answers with text that is no number. -/
def junkWorld : World where
  acceptError := none
  declineError := fun _ => none
  commentError := none
  priceResponse := fun _ => PriceResponse.body (some "N/A")
  webhookError := none
  now := "2024-01-01T00:00:00.000Z"

/-- A world whose market is unreachable. -/
def downWorld : World where
  acceptError := none
  declineError := fun _ => none
  commentError := none
  priceResponse := fun _ => PriceResponse.networkError "Error: ECONNREFUSED"
  webhookError := none
  now := "2024-01-01T00:00:00.000Z"

/-- A world whose market appends text to every amount. -/
def suffixWorld : World where
  acceptError := none
  declineError := fun _ => none
  commentError := none
  priceResponse := fun _ => PriceResponse.body (some "$12abc")
  webhookError := none
  now := "2024-01-01T00:00:00.000Z"

/-- A world in which `accept` succeeds and everything after it fails: the
comment, every price request and the webhook. -/
def flakyWorld : World where
  acceptError := none
  declineError := fun _ => none
  commentError := some "Error: comments are private"
  priceResponse := fun _ => PriceResponse.networkError "Error: timeout"
  webhookError := some "Error: 404"
  now := "2024-01-01T00:00:00.000Z"

/-- An offer of the administrator that asks for an item of the bot. -/
def adminOffer : Offer := ⟨"1001", some config.adminID, some [itemX], some [itemA]⟩

/-- An exchange proposed by an ordinary user. -/
def swapOffer : Offer := ⟨"1002", some "user123", some [itemX], some [itemA]⟩

/-- A gift of an item of a game that is not accepted. -/
def unsupportedOffer : Offer := ⟨"1003", some "user123", some [], some [item9999]⟩

/-- A gift of an item of game 730. -/
def giftOffer : Offer := ⟨"1004", some "user123", some [], some [itemA]⟩

/-- An offer of the administrator that takes an item and gives none. -/
def withdrawOffer : Offer := ⟨"1005", some config.adminID, some [itemX], some []⟩

/-! ## Running the computations -/

@[simp] theorem pure_run {α : Type} (a : α) (s : St) : (pure a : M α) s = Res.ok a s := rfl

@[simp] theorem bind_run {α β : Type} (x : M α) (f : α → M β) (s : St) :
    (x >>= f) s = match x s with
      | Res.ok a s1 => f a s1
      | Res.threw e s1 => Res.threw e s1 := rfl

@[simp] theorem throw_run {α : Type} (e : Err) (s : St) :
    (throw e : M α) s = Res.threw e s := rfl

@[simp] theorem tryCatch_run {α : Type} (x : M α) (h : Err → M α) (s : St) :
    (tryCatch x h) s = match x s with
      | Res.ok a s1 => Res.ok a s1
      | Res.threw e s1 => h e s1 := rfl

@[simp] theorem emit_run (e : Event) (s : St) :
    emit e s = Res.ok () { s with trace := s.trace ++ [e] } := rfl

theorem offerAccept_run (w : World) (s : St) :
    offerAccept w s = match w.acceptError with
      | some e => Res.threw e ⟨s.trace ++ [Event.accept], s.declines, s.lookups⟩
      | none => Res.ok () ⟨s.trace ++ [Event.accept], s.declines, s.lookups⟩ := rfl

theorem offerDecline_run (w : World) (s : St) :
    offerDecline w s = match w.declineError s.declines with
      | some e => Res.threw e ⟨s.trace ++ [Event.decline], s.declines + 1, s.lookups⟩
      | none => Res.ok () ⟨s.trace ++ [Event.decline], s.declines + 1, s.lookups⟩ := rfl

theorem postUserComment_run (w : World) (steamID text : String) (s : St) :
    postUserComment w steamID text s = match w.commentError with
      | some e =>
        Res.threw e ⟨s.trace ++ [Event.postUserComment steamID text], s.declines, s.lookups⟩
      | none =>
        Res.ok () ⟨s.trace ++ [Event.postUserComment steamID text], s.declines, s.lookups⟩ :=
  rfl

/-- The exact decimal sum is the sum of the rationals. -/
theorem Dec.add_toRat (a b : Dec) : (a.add b).toRat = a.toRat + b.toRat := by
  unfold Dec.add Dec.toRat
  simp only
  have ha : a.scale ≤ max a.scale b.scale := le_max_left _ _
  have hb : b.scale ≤ max a.scale b.scale := le_max_right _ _
  have h10 : (10 : ℚ) ≠ 0 := by norm_num
  have e1 : (10 : ℚ) ^ (max a.scale b.scale) =
      10 ^ (max a.scale b.scale - a.scale) * 10 ^ a.scale := by
    rw [← pow_add, Nat.sub_add_cancel ha]
  have e2 : (10 : ℚ) ^ (max a.scale b.scale) =
      10 ^ (max a.scale b.scale - b.scale) * 10 ^ b.scale := by
    rw [← pow_add, Nat.sub_add_cancel hb]
  push_cast
  rw [add_div]
  congr 1
  · rw [e1, mul_comm, mul_div_mul_left _ _ (pow_ne_zero _ h10)]
  · rw [e2, mul_comm, mul_div_mul_left _ _ (pow_ne_zero _ h10)]

/-- The number primitives on sample texts. -/
theorem parseFloat_samples :
    toFixed2 (parseFloat (replaceDollar "$12.34")) = "12.34" ∧
    toFixed2 (parseFloat (replaceDollar "$1,234.56")) = "1.00" ∧
    toFixed2 (parseFloat "-.5e1abc") = "-5.00" ∧
    toFixed2 (parseFloat "5.") = "5.00" ∧
    toFixed2 (parseFloat "15e-1") = "1.50" ∧
    toFixed2 (parseFloat "-Infinityx") = "-Infinity" ∧
    parseFloat "abc" = JSNum.nan ∧
    parseFloat "." = JSNum.nan ∧
    natToString 252490 = "252490" := by
  decide

/-- One price lookup: it always returns, with the quote of the response. -/
theorem getItemPrice_run (w : World) (appid : Nat) (name : String) (s : St) :
    getItemPrice w appid name s =
      Res.ok (quoteOf (w.priceResponse s.lookups))
        ⟨s.trace ++ lookupEvents appid name (w.priceResponse s.lookups),
          s.declines, s.lookups + 1⟩ := by
  unfold getItemPrice
  simp only [tryCatch_run, bind_run, axiosGet]
  cases h : w.priceResponse s.lookups <;>
    simp [lowestPrice, quoteOf, lookupEvents, lookupError]

theorem totalLoop_run (w : World) (items : List Item) :
    ∀ (total : JSNum) (s : St), totalLoop w items total s =
      Res.ok ((quotes w s.lookups items).foldl addPrice total)
        ⟨s.trace ++ lookupTrace w s.lookups items, s.declines, s.lookups + items.length⟩ := by
  induction items with
  | nil => intro total s; simp [totalLoop, quotes, lookupTrace]
  | cons item rest ih =>
    intro total s
    simp [totalLoop, getItemPrice_run, ih, quotes, lookupTrace, List.append_assoc]
    omega

theorem calculateTotalValue_run (w : World) (items : List Item) (s : St) :
    calculateTotalValue w items s =
      Res.ok (formatTotal ((quotes w s.lookups items).foldl addPrice (JSNum.fin Dec.zero)))
        ⟨s.trace ++ lookupTrace w s.lookups items, s.declines, s.lookups + items.length⟩ := by
  simp [calculateTotalValue, totalLoop_run]

theorem itemLines_run (w : World) (items : List Item) :
    ∀ (s : St), itemLines w items s =
      Res.ok (List.zipWith itemLine items (quotes w s.lookups items))
        ⟨s.trace ++ lookupTrace w s.lookups items, s.declines, s.lookups + items.length⟩ := by
  induction items with
  | nil => intro s; simp [itemLines, quotes, lookupTrace]
  | cons item rest ih =>
    intro s
    simp [itemLines, getItemPrice_run, ih, quotes, lookupTrace, List.append_assoc]
    omega

theorem lookupTrace_isReport (w : World) (items : List Item) :
    ∀ (k : Nat), ∀ e ∈ lookupTrace w k items, e.isReport = true := by
  induction items with
  | nil => intro k e he; simp [lookupTrace] at he
  | cons item rest ih =>
    intro k e he
    simp only [lookupTrace, List.mem_append] at he
    rcases he with he | he
    · unfold lookupEvents at he
      cases hr : lookupError (w.priceResponse k) <;> simp [hr] at he
      · subst he; rfl
      · rcases he with he | he <;> subst he <;> rfl
    · exact ih (k + 1) e he

/-- The notification always returns; it leaves its own entry followed by
`notificationEvents`, and calls neither `accept` nor `decline`. -/
theorem sendDiscordNotification_run (cfg : Config) (w : World) (offer : Offer)
    (isAdmin : Bool) (s : St) :
    sendDiscordNotification cfg w offer isAdmin s =
      Res.ok () ⟨s.trace ++ Event.sendDiscordNotification isAdmin ::
        notificationEvents cfg w offer isAdmin s.lookups, s.declines,
        notificationLookups offer s.lookups⟩ := by
  unfold sendDiscordNotification notificationEvents notificationLookups
  simp only [bind_run, emit_run, tryCatch_run, partnerToString, readItemsToReceive]
  cases hp : offer.partner with
  | none => simp
  | some p =>
    cases hr : offer.itemsToReceive with
    | none => simp
    | some items =>
      simp only [pure_run, itemLines_run, calculateTotalValue, bind_run, totalLoop_run, axiosPost]
      cases hw : w.webhookError <;> simp [List.append_assoc]

theorem notificationEvents_isReport (cfg : Config) (w : World) (offer : Offer)
    (isAdmin : Bool) (k : Nat) :
    ∀ e ∈ notificationEvents cfg w offer isAdmin k, e.isReport = true := by
  intro e he
  unfold notificationEvents at he
  have hl := lookupTrace_isReport w
  cases hp : offer.partner with
  | none => simp [hp] at he; subst he; rfl
  | some p =>
    cases hr : offer.itemsToReceive with
    | none => simp [hp, hr] at he; subst he; rfl
    | some items =>
      simp only [hp, hr, List.mem_append, List.mem_cons, List.mem_singleton, List.not_mem_nil,
        or_false] at he
      rcases he with he | he | he | he
      · exact hl _ _ e he
      · exact hl _ _ e he
      · subst he; rfl
      · subst he; cases w.webhookError <;> rfl

theorem everyValid_run (items : List Item) :
    ∀ (s : St), everyValid items s =
      Res.ok (items.all (fun i => isValidGameItem i.appid))
        ⟨s.trace ++ validityChecks items, s.declines, s.lookups⟩ := by
  induction items with
  | nil => intro s; simp [everyValid, validityChecks]
  | cons item rest ih =>
    intro s
    cases hv : isValidGameItem item.appid <;>
      simp [everyValid, validityChecks, hv, ih, List.append_assoc]

theorem validityChecks_mem (items : List Item) :
    ∀ e ∈ validityChecks items, ∃ a, e = Event.isValidGameItem a := by
  induction items with
  | nil => intro e he; simp [validityChecks] at he
  | cons item rest ih =>
    intro e he
    simp only [validityChecks, List.mem_cons] at he
    rcases he with he | he
    · exact ⟨_, he⟩
    · cases hv : isValidGameItem item.appid
      · simp [hv] at he
      · simp only [hv, if_true] at he; exact ih e he

theorem isValidGameItem_iff (appid : Nat) :
    isValidGameItem appid = true ↔ appid = 730 ∨ appid = 570 ∨ appid = 252490 := by
  simp [isValidGameItem, acceptedGames]

/-- The run of the handler on an offer of the administrator. -/
theorem admin_path (cfg : Config) (w : World) (offer : Offer)
    (hadmin : offer.partner = some cfg.adminID) :
    (∃ rest, (run cfg w offer).trace =
        Event.log ("Received trade offer " ++ offer.id ++ " from " ++ cfg.adminID) ::
          Event.accept :: rest) ∧
      Event.isGiftTrade ∉ (run cfg w offer).trace ∧
      (∀ a, Event.isValidGameItem a ∉ (run cfg w offer).trace) ∧
      Event.acceptGiftTrade ∉ (run cfg w offer).trace ∧
      (w.acceptError = none →
        Event.decline ∉ (run cfg w offer).trace ∧
        Event.sendDiscordNotification true ∈ (run cfg w offer).trace ∧
        (run cfg w offer).completed = true) := by
  have hrep := notificationEvents_isReport cfg w offer true 0
  unfold run handleNewOffer
  simp only [tryCatch_run, bind_run, partnerToString, hadmin, pure_run, emit_run, St.init,
    decide_True, if_true, offerAccept_run, offerDecline_run, List.nil_append]
  cases ha : w.acceptError with
  | some e => cases hd : w.declineError 0 <;> simp [Res.trace, Res.state, hd]
  | none =>
    simp only [sendDiscordNotification_run, emit_run, Res.trace, Res.state]
    have hno : ∀ e : Event, e.isReport = false →
        e ∉ notificationEvents cfg w offer true 0 := by
      intro e he hmem
      rw [hrep e hmem] at he
      exact Bool.noConfusion he
    refine ⟨⟨_, rfl⟩, ?_, ?_, ?_, ?_⟩
    · simpa using hno Event.isGiftTrade rfl
    · intro a; simpa using hno (Event.isValidGameItem a) rfl
    · simpa using hno Event.acceptGiftTrade rfl
    · intro _
      refine ⟨?_, ?_, rfl⟩
      · simpa using hno Event.decline rfl
      · simp

theorem addPrice_unusable (total : JSNum) (q : String)
    (h : q = "Price unavailable" ∨ q = "No price data" ∨
      (parseFloat (replaceDollar q)).isNaN = true) : addPrice total q = total := by
  unfold addPrice
  rcases h with h | h | h
  · simp [h]
  · simp [h]
  · simp [h]

theorem foldl_addPrice_unusable (qs : List String) :
    ∀ (total : JSNum), (∀ q ∈ qs, q = "Price unavailable" ∨ q = "No price data" ∨
      (parseFloat (replaceDollar q)).isNaN = true) → qs.foldl addPrice total = total := by
  induction qs with
  | nil => intro total _; rfl
  | cons q rest ih =>
    intro total h
    rw [List.foldl_cons, addPrice_unusable total q (h q (List.mem_cons_self _ _))]
    exact ih total (fun q1 hq1 => h q1 (List.mem_cons_of_mem _ hq1))

theorem foldl_addPrice_congr (w w1 : World)
    (h : ∀ n, w1.priceResponse n = w.priceResponse n ∨
      ((parseFloat (replaceDollar (quoteOf (w.priceResponse n)))).isNaN = true ∧
        quoteOf (w1.priceResponse n) = "Price unavailable"))
    (items : List Item) :
    ∀ (k : Nat) (total : JSNum),
      (quotes w k items).foldl addPrice total = (quotes w1 k items).foldl addPrice total := by
  induction items with
  | nil => intro k total; rfl
  | cons item rest ih =>
    intro k total
    simp only [quotes, List.foldl_cons]
    rcases h k with hk | ⟨hnan, hun⟩
    · rw [hk, ih]
    · rw [addPrice_unusable total _ (Or.inr (Or.inr hnan)), hun,
        addPrice_unusable total _ (Or.inl rfl), ih]

/-- The example of the specification: the quotes `$1.00`, unavailable, `$2.50`
give `$3.50`. -/
theorem calculateTotalValue_mixed :
    (calculateTotalValue mixedWorld [itemA, itemA, itemA] St.init).returned = some "$3.50" := by
  decide

/-! ## The claims -/

/-- C1: for an offer whose sender is the administrator, whatever its item
lists hold, the handler logs the offer and calls `accept` first; it enters
neither `isGiftTrade` nor `isValidGameItem` nor `acceptGiftTrade`; and when
`accept` succeeds it never declines, notifies as an administrator trade and
completes. -/
theorem handleNewOffer_admin_accepts (cfg : Config) (w : World) (offer : Offer)
    (hadmin : offer.partner = some cfg.adminID) :
    (∃ rest, (run cfg w offer).trace =
        Event.log ("Received trade offer " ++ offer.id ++ " from " ++ cfg.adminID) ::
          Event.accept :: rest) ∧
      Event.isGiftTrade ∉ (run cfg w offer).trace ∧
      (∀ a, Event.isValidGameItem a ∉ (run cfg w offer).trace) ∧
      Event.acceptGiftTrade ∉ (run cfg w offer).trace ∧
      (w.acceptError = none →
        Event.decline ∉ (run cfg w offer).trace ∧
        Event.sendDiscordNotification true ∈ (run cfg w offer).trace ∧
        (run cfg w offer).completed = true) :=
  admin_path cfg w offer hadmin

/-- C1 at the administrator's offer that asks for an item of the bot. -/
theorem handleNewOffer_admin_accepts_witness :
    adminOffer.partner = some config.adminID ∧
      Event.isGiftTrade ∉ (run config calmWorld adminOffer).trace ∧
      Event.decline ∉ (run config calmWorld adminOffer).trace :=
  ⟨rfl, (handleNewOffer_admin_accepts config calmWorld adminOffer rfl).2.1,
    ((handleNewOffer_admin_accepts config calmWorld adminOffer rfl).2.2.2.2 rfl).1⟩

/-- C2: when a run of the handler enters `acceptGiftTrade`, the sender is not
the administrator, `itemsToGive` is empty, `itemsToReceive` is non-empty and
every received item has appid 730, 570 or 252490. -/
theorem acceptAsGift_invariant (cfg : Config) (w : World) (offer : Offer)
    (h : Event.acceptGiftTrade ∈ (run cfg w offer).trace) :
    offer.partner ≠ some cfg.adminID ∧ offer.itemsToGive = some [] ∧
      ∃ recv, offer.itemsToReceive = some recv ∧ recv ≠ [] ∧
        ∀ item ∈ recv, item.appid = 730 ∨ item.appid = 570 ∨ item.appid = 252490 := by
  cases hp : offer.partner with
  | none =>
    exfalso
    revert h
    unfold run handleNewOffer
    cases hd0 : w.declineError 0 <;>
      simp [Res.trace, Res.state, hd0, offerDecline_run, partnerToString, hp, St.init]
  | some p =>
    by_cases hadm : p = cfg.adminID
    · subst hadm
      exact absurd h (admin_path cfg w offer hp).2.2.2.1
    · refine ⟨by simpa using hadm, ?_⟩
      cases hg : offer.itemsToGive with
      | none =>
        exfalso
        revert h
        unfold run handleNewOffer
        cases hd0 : w.declineError 0 <;>
          simp [Res.trace, Res.state, hd0, offerDecline_run, partnerToString, hp, St.init,
            hadm, isGiftTrade, readItemsToGive, hg]
      | some give =>
        cases give with
        | cons a l =>
          exfalso
          revert h
          unfold run handleNewOffer
          cases hd0 : w.declineError 0 <;> cases hd1 : w.declineError 1 <;>
            simp [Res.trace, Res.state, hd0, hd1, offerDecline_run, partnerToString, hp,
              St.init, hadm, isGiftTrade, readItemsToGive, hg]
        | nil =>
          refine ⟨rfl, ?_⟩
          cases hr : offer.itemsToReceive with
          | none =>
            exfalso
            revert h
            unfold run handleNewOffer
            cases hd0 : w.declineError 0 <;>
              simp [Res.trace, Res.state, hd0, offerDecline_run, partnerToString, hp, St.init,
                hadm, isGiftTrade, readItemsToGive, readItemsToReceive, hg, hr]
          | some recv =>
            refine ⟨recv, rfl, ?_⟩
            cases hall : recv.all fun i => isValidGameItem i.appid with
            | true =>
              constructor
              · intro hnil
                subst hnil
                revert h
                unfold run handleNewOffer
                cases hd0 : w.declineError 0 <;> cases hd1 : w.declineError 1 <;>
                  simp [Res.trace, Res.state, hd0, hd1, offerDecline_run, partnerToString, hp,
                    St.init, hadm, isGiftTrade, readItemsToGive, readItemsToReceive, hg, hr]
              · intro item hmem
                rw [List.all_eq_true] at hall
                exact (isValidGameItem_iff item.appid).1 (hall item hmem)
            | false =>
              exfalso
              have hchk : Event.acceptGiftTrade ∉ validityChecks recv := by
                intro hmem
                obtain ⟨a, ha⟩ := validityChecks_mem recv _ hmem
                exact Event.noConfusion ha
              revert h
              unfold run handleNewOffer
              cases hd0 : w.declineError 0 <;> cases hd1 : w.declineError 1 <;>
                by_cases hlen : 0 < recv.length <;>
                simp [Res.trace, Res.state, hd0, hd1, offerDecline_run, partnerToString, hp,
                  St.init, hadm, isGiftTrade, readItemsToGive, readItemsToReceive, hg, hr,
                  everyValid_run, hall, hchk, hlen]

/-- C2 at the gift of one item of game 730, which does enter
`acceptGiftTrade`. -/
theorem acceptAsGift_invariant_witness :
    Event.acceptGiftTrade ∈ (run config calmWorld giftOffer).trace ∧
      giftOffer.itemsToGive = some [] :=
  ⟨by decide, (acceptAsGift_invariant config calmWorld giftOffer (by decide)).2.1⟩

/-- C3: for an offer of a sender other than the administrator whose
`itemsToGive` is non-empty or whose `itemsToReceive` is empty, the handler
calls `decline` right after `isGiftTrade`, and calls neither `accept` nor
`acceptGiftTrade` nor the notification. -/
theorem handleNewOffer_declines_not_gift (cfg : Config) (w : World) (offer : Offer)
    (p : String) (give recv : List Item) (hp : offer.partner = some p)
    (hna : p ≠ cfg.adminID) (hg : offer.itemsToGive = some give)
    (hr : offer.itemsToReceive = some recv) (hshape : give ≠ [] ∨ recv = []) :
    (∃ rest, (run cfg w offer).trace =
        Event.log ("Received trade offer " ++ offer.id ++ " from " ++ p) ::
          Event.isGiftTrade :: Event.decline :: rest) ∧
      Event.accept ∉ (run cfg w offer).trace ∧
      Event.acceptGiftTrade ∉ (run cfg w offer).trace ∧
      (∀ b, Event.sendDiscordNotification b ∉ (run cfg w offer).trace) := by
  unfold run handleNewOffer
  simp only [tryCatch_run, bind_run, partnerToString, hp, pure_run, emit_run, St.init,
    hna, decide_False, isGiftTrade, readItemsToGive, readItemsToReceive, hg, hr,
    offerDecline_run, List.nil_append]
  cases give with
  | cons a l =>
    cases hd0 : w.declineError 0 <;> cases hd1 : w.declineError 1 <;>
      simp [Res.trace, Res.state, hd0, hd1, offerDecline_run]
  | nil =>
    have hrecv : recv = [] := by simpa using hshape
    subst hrecv
    cases hd0 : w.declineError 0 <;> cases hd1 : w.declineError 1 <;>
      simp [Res.trace, Res.state, hd0, hd1, offerDecline_run]

/-- C3 at the offer of `user123` that gives `itemX` for `itemA`. -/
theorem handleNewOffer_declines_not_gift_witness :
    Event.decline ∈ (run config calmWorld swapOffer).trace ∧
      Event.accept ∉ (run config calmWorld swapOffer).trace := by
  have h := handleNewOffer_declines_not_gift config calmWorld swapOffer "user123"
    [itemX] [itemA] rfl (by decide) rfl rfl (Or.inl (by decide))
  obtain ⟨⟨rest, hrest⟩, hacc, _⟩ := h
  exact ⟨by rw [hrest]; simp, hacc⟩

/-- C4, refuted as stated: the administrator's offer with a non-empty
`itemsToGive` is accepted and not declined. -/
theorem nonempty_give_admin_accepted :
    adminOffer.itemsToGive = some [itemX] ∧
      Event.accept ∈ (run config calmWorld adminOffer).trace ∧
      Event.decline ∉ (run config calmWorld adminOffer).trace := by
  decide

/-- C4, amended: for an offer of a sender other than the administrator with
a non-empty `itemsToGive`, whatever `itemsToReceive` is, the handler calls
`decline` right after `isGiftTrade` and never calls `accept`. -/
theorem handleNewOffer_declines_giving (cfg : Config) (w : World) (offer : Offer)
    (p : String) (give : List Item) (hp : offer.partner = some p) (hna : p ≠ cfg.adminID)
    (hg : offer.itemsToGive = some give) (hne : give ≠ []) :
    (∃ rest, (run cfg w offer).trace =
        Event.log ("Received trade offer " ++ offer.id ++ " from " ++ p) ::
          Event.isGiftTrade :: Event.decline :: rest) ∧
      Event.accept ∉ (run cfg w offer).trace := by
  unfold run handleNewOffer
  cases give with
  | nil => exact absurd rfl hne
  | cons a l =>
    cases hd0 : w.declineError 0 <;> cases hd1 : w.declineError 1 <;>
      simp [Res.trace, Res.state, hd0, hd1, offerDecline_run, partnerToString, hp, St.init,
        hna, isGiftTrade, readItemsToGive, hg]

/-- C4, amended, at the offer of `user123` that gives `itemX`, in a world
where `decline` fails. -/
theorem handleNewOffer_declines_giving_witness :
    Event.accept ∉ (run config stormWorld swapOffer).trace :=
  (handleNewOffer_declines_giving config stormWorld swapOffer "user123" [itemX] rfl
    (by decide) rfl (by decide)).2

/-- C5: for a gift (empty `itemsToGive`) of a sender other than the
administrator in which some received item has an appid other than 730, 570
and 252490, the handler calls `decline` after the validity checks, and calls
neither `accept` nor `acceptGiftTrade`. -/
theorem handleNewOffer_declines_unsupported (cfg : Config) (w : World) (offer : Offer)
    (p : String) (recv : List Item) (hp : offer.partner = some p) (hna : p ≠ cfg.adminID)
    (hg : offer.itemsToGive = some []) (hr : offer.itemsToReceive = some recv)
    (hbad : ∃ item ∈ recv, item.appid ≠ 730 ∧ item.appid ≠ 570 ∧ item.appid ≠ 252490) :
    (∃ rest, (run cfg w offer).trace =
        Event.log ("Received trade offer " ++ offer.id ++ " from " ++ p) ::
          Event.isGiftTrade :: (validityChecks recv ++ Event.decline :: rest)) ∧
      Event.accept ∉ (run cfg w offer).trace ∧
      Event.acceptGiftTrade ∉ (run cfg w offer).trace ∧
      (∀ b, Event.sendDiscordNotification b ∉ (run cfg w offer).trace) := by
  have hall : (recv.all fun i => isValidGameItem i.appid) = false := by
    obtain ⟨item, hmem, h1, h2, h3⟩ := hbad
    rw [List.all_eq_false]
    refine ⟨item, hmem, ?_⟩
    rw [isValidGameItem_iff]
    omega
  have hlen : 0 < recv.length := by
    obtain ⟨item, hmem, _⟩ := hbad
    exact List.length_pos_of_mem hmem
  have hchk : ∀ e : Event, (∀ a, e ≠ Event.isValidGameItem a) → e ∉ validityChecks recv := by
    intro e he hmem
    obtain ⟨a, ha⟩ := validityChecks_mem recv e hmem
    exact he a ha
  have h1 := hchk Event.accept (by intro a; simp)
  have h2 := hchk Event.acceptGiftTrade (by intro a; simp)
  have h3 : ∀ b, Event.sendDiscordNotification b ∉ validityChecks recv :=
    fun b => hchk _ (by intro a; simp)
  unfold run handleNewOffer
  cases hd0 : w.declineError 0 <;> cases hd1 : w.declineError 1 <;>
    simp [Res.trace, Res.state, hd0, hd1, offerDecline_run, partnerToString, hp, St.init,
      hna, isGiftTrade, readItemsToGive, readItemsToReceive, hg, hr, hlen, everyValid_run, hall,
      h1, h2, h3]

/-- C5 at the gift of one item of appid 9999. -/
theorem handleNewOffer_declines_unsupported_witness :
    Event.decline ∈ (run config calmWorld unsupportedOffer).trace ∧
      Event.accept ∉ (run config calmWorld unsupportedOffer).trace := by
  have h := handleNewOffer_declines_unsupported config calmWorld unsupportedOffer "user123"
    [item9999] rfl (by decide) rfl rfl ⟨item9999, by simp, by decide⟩
  obtain ⟨⟨rest, hrest⟩, hacc, _⟩ := h
  exact ⟨by rw [hrest]; simp, hacc⟩

/-- C6, the failing input: a single item quoted `$1,234.56` is neither
discarded nor summed at its amount; `calculateTotalValue` returns `$1.00`. -/
theorem calculateTotalValue_thousands_separator :
    quotes thousandsWorld 0 [itemA] = ["$1,234.56"] ∧
      calculateTotalValue thousandsWorld [itemA] St.init =
        Res.ok "$1.00"
          ⟨[Event.priceRequest 730 "AK-47 | Redline (Field-Tested)"], 0, 1⟩ := by
  constructor <;> rfl

/-- The marker under the filter of the loop: `calculateTotalValue` of the
empty list returns `'Unable to calculate total'`; and whenever every quote of
the items is
`'Price unavailable'`, `'No price data'` or text that `parseFloat` maps to
`NaN`, it returns `'Unable to calculate total'` and not `$0.00`. -/
theorem calculateTotalValue_no_usable_price (w : World) :
    (∀ s, calculateTotalValue w [] s = Res.ok "Unable to calculate total" s) ∧
    (∀ items s,
      (∀ q ∈ quotes w s.lookups items, q = "Price unavailable" ∨ q = "No price data" ∨
        (parseFloat (replaceDollar q)).isNaN = true) →
      (calculateTotalValue w items s).returned = some "Unable to calculate total" ∧
      (calculateTotalValue w items s).returned ≠ some "$0.00") := by
  constructor
  · intro s
    rw [calculateTotalValue_run]
    simp [quotes, lookupTrace, formatTotal, JSNum.gtZero, Dec.zero]
  · intro items s h
    rw [calculateTotalValue_run, foldl_addPrice_unusable _ _ h]
    simp [Res.returned, formatTotal, JSNum.gtZero, Dec.zero]

/-- The marker at two items whose price requests both fail. -/
theorem calculateTotalValue_no_usable_price_witness :
    (calculateTotalValue downWorld [itemA, itemX] St.init).returned =
      some "Unable to calculate total" :=
  ((calculateTotalValue_no_usable_price downWorld).2 [itemA, itemX] St.init
    (by decide)).1

/-- C8: `getItemPrice` always returns: the `lowest_price` of the body when it
is present and non-empty, `'No price data'` when it is absent or empty,
`'Price unavailable'` when the request fails or the response has no body;
and a quote that `parseFloat` maps to `NaN` changes `total`, and the value
`calculateTotalValue` returns, exactly as `'Price unavailable'` does. -/
theorem getItemPrice_never_throws :
    (∀ (w : World) (appid : Nat) (name : String) (s : St),
      ∃ s1, getItemPrice w appid name s =
        Res.ok (match w.priceResponse s.lookups with
          | PriceResponse.body (some p) => if p = "" then "No price data" else p
          | PriceResponse.body none => "No price data"
          | PriceResponse.noBody => "Price unavailable"
          | PriceResponse.networkError _ => "Price unavailable") s1) ∧
    (∀ (total : JSNum) (q : String), (parseFloat (replaceDollar q)).isNaN = true →
      addPrice total q = addPrice total "Price unavailable") ∧
    (∀ (w w1 : World) (items : List Item) (s : St),
      (∀ n, w1.priceResponse n = w.priceResponse n ∨
        ((parseFloat (replaceDollar (quoteOf (w.priceResponse n)))).isNaN = true ∧
          quoteOf (w1.priceResponse n) = "Price unavailable")) →
      (calculateTotalValue w items s).returned = (calculateTotalValue w1 items s).returned) := by
  refine ⟨?_, ?_, ?_⟩
  · intro w appid name s
    refine ⟨⟨s.trace ++ lookupEvents appid name (w.priceResponse s.lookups), s.declines,
      s.lookups + 1⟩, ?_⟩
    rw [getItemPrice_run]
    cases hr : w.priceResponse s.lookups with
    | body lp => cases lp <;> simp [quoteOf, orElse]
    | noBody => simp [quoteOf]
    | networkError e => simp [quoteOf]
  · intro total q h
    rw [addPrice_unusable total q (Or.inr (Or.inr h)),
      addPrice_unusable total _ (Or.inl rfl)]
  · intro w w1 items s h
    rw [calculateTotalValue_run, calculateTotalValue_run]
    simp only [Res.returned]
    rw [foldl_addPrice_congr w w1 h]

/-- C8 at a market that answers `N/A` against a market that is unreachable. -/
theorem getItemPrice_never_throws_witness :
    (calculateTotalValue junkWorld [itemA] St.init).returned =
      (calculateTotalValue downWorld [itemA] St.init).returned :=
  getItemPrice_never_throws.2.2 junkWorld downWorld [itemA] St.init
    (fun _ => Or.inr ⟨rfl, rfl⟩)

/-- C9, the failing input: on a gift whose `accept` fails, the `decline` of
the catch block fails too and the handler throws instead of completing. -/
theorem handleNewOffer_fallback_decline_rejects :
    run config stormWorld giftOffer =
      Res.threw "Error: Not Logged In"
        ⟨[Event.log "Received trade offer 1004 from user123", Event.isGiftTrade,
          Event.isValidGameItem 730, Event.acceptGiftTrade, Event.accept,
          Event.error "Error accepting gift trade:" "Error: Not Logged In",
          Event.error "Error handling trade offer:" "Error: Not Logged In",
          Event.decline], 1, 0⟩ ∧
      (run config stormWorld giftOffer).completed = false := by
  constructor <;> rfl

/-- C10: `getGameName` is a total function; it returns `CSGO` for 730,
`DOTA2` for 570 and `RUST` for 252490, the key of each entry of
`acceptedGames` for its value, and `Unknown Game` for every identifier that
is not a value of `acceptedGames`. -/
theorem getGameName_spec (appid : Nat) :
    getGameName 730 = "CSGO" ∧ getGameName 570 = "DOTA2" ∧ getGameName 252490 = "RUST" ∧
      acceptedGames.map (fun kv => getGameName kv.2) = acceptedGames.map Prod.fst ∧
      (appid ∉ acceptedGames.map Prod.snd → getGameName appid = "Unknown Game") := by
  refine ⟨by decide, by decide, by decide, by decide, ?_⟩
  intro h
  simp [acceptedGames] at h
  obtain ⟨h1, h2, h3⟩ := h
  have e1 : (730 == appid) = false := by rw [beq_eq_false_iff_ne]; omega
  have e2 : (570 == appid) = false := by rw [beq_eq_false_iff_ne]; omega
  have e3 : (252490 == appid) = false := by rw [beq_eq_false_iff_ne]; omega
  simp [getGameName, acceptedGames, List.find?, List.lookup, e1, e2, e3, orElse]

/-- C10 at the identifier 9999. -/
theorem getGameName_spec_witness : getGameName 9999 = "Unknown Game" :=
  (getGameName_spec 9999).2.2.2.2 (by decide)

/-! ## Shapes of a run, for the claims on notification and fallback -/

/-- The shape of an offer on the gift path. -/
theorem gift_shape (cfg : Config) (w : World) (offer : Offer)
    (h : Event.acceptGiftTrade ∈ (run cfg w offer).trace) :
    ∃ p recv, offer.partner = some p ∧ p ≠ cfg.adminID ∧ offer.itemsToGive = some [] ∧
      offer.itemsToReceive = some recv ∧ recv ≠ [] ∧
      (recv.all fun i => isValidGameItem i.appid) = true := by
  cases hp : offer.partner with
  | none =>
    exfalso
    revert h
    unfold run handleNewOffer
    cases hd0 : w.declineError 0 <;>
      simp [Res.trace, Res.state, hd0, offerDecline_run, partnerToString, hp, St.init]
  | some p =>
    by_cases hadm : p = cfg.adminID
    · subst hadm
      exact absurd h (admin_path cfg w offer hp).2.2.2.1
    · refine ⟨p, ?_⟩
      cases hg : offer.itemsToGive with
      | none =>
        exfalso
        revert h
        unfold run handleNewOffer
        cases hd0 : w.declineError 0 <;>
          simp [Res.trace, Res.state, hd0, offerDecline_run, partnerToString, hp, St.init,
            hadm, isGiftTrade, readItemsToGive, hg]
      | some give =>
        cases give with
        | cons a l =>
          exfalso
          revert h
          unfold run handleNewOffer
          cases hd0 : w.declineError 0 <;> cases hd1 : w.declineError 1 <;>
            simp [Res.trace, Res.state, hd0, hd1, offerDecline_run, partnerToString, hp,
              St.init, hadm, isGiftTrade, readItemsToGive, hg]
        | nil =>
          cases hr : offer.itemsToReceive with
          | none =>
            exfalso
            revert h
            unfold run handleNewOffer
            cases hd0 : w.declineError 0 <;>
              simp [Res.trace, Res.state, hd0, offerDecline_run, partnerToString, hp, St.init,
                hadm, isGiftTrade, readItemsToGive, readItemsToReceive, hg, hr]
          | some recv =>
            refine ⟨recv, rfl, hadm, rfl, rfl, ?_⟩
            cases hall : recv.all fun i => isValidGameItem i.appid with
            | true =>
              refine ⟨?_, rfl⟩
              intro hnil
              subst hnil
              revert h
              unfold run handleNewOffer
              cases hd0 : w.declineError 0 <;> cases hd1 : w.declineError 1 <;>
                simp [Res.trace, Res.state, hd0, hd1, offerDecline_run, partnerToString, hp,
                  St.init, hadm, isGiftTrade, readItemsToGive, readItemsToReceive, hg, hr]
            | false =>
              exfalso
              have hchk : Event.acceptGiftTrade ∉ validityChecks recv := by
                intro hmem
                obtain ⟨a, ha⟩ := validityChecks_mem recv _ hmem
                exact Event.noConfusion ha
              revert h
              unfold run handleNewOffer
              cases hd0 : w.declineError 0 <;> cases hd1 : w.declineError 1 <;>
                by_cases hlen : 0 < recv.length <;>
                simp [Res.trace, Res.state, hd0, hd1, offerDecline_run, partnerToString, hp,
                  St.init, hadm, isGiftTrade, readItemsToGive, readItemsToReceive, hg, hr,
                  everyValid_run, hall, hchk, hlen]

/-- The run of the handler on an offer of gift shape. -/
theorem gift_run (cfg : Config) (w : World) (offer : Offer) (p : String) (recv : List Item)
    (hp : offer.partner = some p) (hna : p ≠ cfg.adminID) (hg : offer.itemsToGive = some [])
    (hr : offer.itemsToReceive = some recv) (hne : recv ≠ [])
    (hall : (recv.all fun i => isValidGameItem i.appid) = true) :
    (∀ e, w.acceptError = some e →
      (run cfg w offer).trace =
        Event.log ("Received trade offer " ++ offer.id ++ " from " ++ p) :: Event.isGiftTrade ::
          (validityChecks recv ++ [Event.acceptGiftTrade, Event.accept,
            Event.error "Error accepting gift trade:" e,
            Event.error "Error handling trade offer:" e, Event.decline])) ∧
    (w.acceptError = none →
      (run cfg w offer).completed = true ∧
      (run cfg w offer).trace =
        Event.log ("Received trade offer " ++ offer.id ++ " from " ++ p) :: Event.isGiftTrade ::
          (validityChecks recv ++ (Event.acceptGiftTrade :: Event.accept ::
            Event.log ("Gift trade " ++ offer.id ++ " accepted - receiving " ++
              natToString recv.length ++ " items") ::
            Event.postUserComment p "Thanks for the gift! 🎁" ::
            ((match w.commentError with
              | some e => [Event.error "Error posting thank you comment:" e]
              | none => []) ++
            Event.sendDiscordNotification false ::
              notificationEvents cfg w offer false 0)))) := by
  have hlen : 0 < recv.length := List.length_pos.2 hne
  constructor
  · intro e he
    unfold run handleNewOffer
    cases hd0 : w.declineError 0 <;>
      simp [Res.trace, Res.state, hd0, offerDecline_run, offerAccept_run, partnerToString, hp,
        St.init, hna, isGiftTrade, readItemsToGive, readItemsToReceive, hg, hr, hlen,
        everyValid_run, hall, acceptGiftTrade, he]
  · intro he
    unfold run handleNewOffer
    cases hc : w.commentError <;>
      simp [Res.trace, Res.state, Res.completed, offerDecline_run, offerAccept_run,
        postUserComment_run, partnerToString, hp,
        St.init, hna, isGiftTrade, readItemsToGive, readItemsToReceive, hg, hr, hlen,
        everyValid_run, hall, acceptGiftTrade, he, hc, sendDiscordNotification_run]


theorem isNotify_false :
    Event.accept.isNotify = false ∧ Event.decline.isNotify = false ∧
      Event.isGiftTrade.isNotify = false ∧ Event.acceptGiftTrade.isNotify = false ∧
      (∀ t, (Event.log t).isNotify = false) ∧ (∀ t e, (Event.error t e).isNotify = false) ∧
      (∀ a, (Event.isValidGameItem a).isNotify = false) ∧
      (∀ i t, (Event.postUserComment i t).isNotify = false) :=
  ⟨rfl, rfl, rfl, rfl, fun _ => rfl, fun _ _ => rfl, fun _ => rfl, fun _ _ => rfl⟩

theorem validityChecks_props (recv : List Item) :
    (∀ e ∈ validityChecks recv, e.isNotify = false) ∧ Event.accept ∉ validityChecks recv ∧
      Event.decline ∉ validityChecks recv := by
  refine ⟨?_, ?_, ?_⟩
  · intro e he
    obtain ⟨a, ha⟩ := validityChecks_mem recv e he
    subst ha; rfl
  · intro he
    obtain ⟨a, ha⟩ := validityChecks_mem recv _ he
    exact Event.noConfusion ha
  · intro he
    obtain ⟨a, ha⟩ := validityChecks_mem recv _ he
    exact Event.noConfusion ha

/-- Every run of the handler either accepts, completes and ends with the
notification, or declines and has no entry of a notification. -/
theorem run_cases (cfg : Config) (w : World) (offer : Offer) :
    (w.acceptError = none ∧ (run cfg w offer).completed = true ∧
      ∃ pre b, (run cfg w offer).trace =
          pre ++ Event.sendDiscordNotification b :: notificationEvents cfg w offer b 0 ∧
        Event.accept ∈ pre ∧ Event.decline ∉ pre ∧ (∀ e ∈ pre, e.isNotify = false) ∧
        (b = true ↔ offer.partner = some cfg.adminID) ∧
        (b = false → Event.acceptGiftTrade ∈ pre)) ∨
    (Event.decline ∈ (run cfg w offer).trace ∧
      (∀ e ∈ (run cfg w offer).trace, e.isNotify = false) ∧
      (Event.accept ∈ (run cfg w offer).trace → w.acceptError ≠ none)) := by
  cases hp : offer.partner with
  | none =>
    right
    unfold run handleNewOffer
    cases hd0 : w.declineError 0 <;>
      simp [Res.trace, Res.state, hd0, offerDecline_run, partnerToString, hp, St.init,
        isNotify_false]
  | some p =>
    by_cases hadm : p = cfg.adminID
    · subst hadm
      cases ha : w.acceptError with
      | some e =>
        right
        unfold run handleNewOffer
        cases hd0 : w.declineError 0 <;>
          simp [Res.trace, Res.state, hd0, offerDecline_run, offerAccept_run, partnerToString,
            hp, St.init, Event.isNotify, ha]
      | none =>
        left
        refine ⟨rfl, ?_, [Event.log ("Received trade offer " ++ offer.id ++ " from " ++
          cfg.adminID), Event.accept,
          Event.log ("Admin trade " ++ offer.id ++ " accepted automatically")], true, ?_⟩
        · unfold run handleNewOffer
          simp [Res.completed, offerAccept_run, partnerToString, hp, St.init, ha,
            sendDiscordNotification_run]
        · refine ⟨?_, by simp, by simp, by simp [isNotify_false], by simp, by simp⟩
          unfold run handleNewOffer
          simp [Res.trace, Res.state, offerAccept_run, partnerToString, hp, St.init, ha,
            sendDiscordNotification_run]
    · have hv1 := fun recv => (validityChecks_props recv).1
      have hv2 := fun recv => (validityChecks_props recv).2.1
      have hv3 := fun recv => (validityChecks_props recv).2.2
      cases hg : offer.itemsToGive with
      | none =>
        right
        unfold run handleNewOffer
        cases hd0 : w.declineError 0 <;>
          simp [Res.trace, Res.state, hd0, offerDecline_run, partnerToString, hp, St.init,
            hadm, isGiftTrade, readItemsToGive, hg, isNotify_false]
      | some give =>
        cases give with
        | cons a l =>
          right
          unfold run handleNewOffer
          cases hd0 : w.declineError 0 <;> cases hd1 : w.declineError 1 <;>
            simp [Res.trace, Res.state, hd0, hd1, offerDecline_run, partnerToString, hp,
              St.init, hadm, isGiftTrade, readItemsToGive, hg, isNotify_false]
        | nil =>
          cases hr : offer.itemsToReceive with
          | none =>
            right
            unfold run handleNewOffer
            cases hd0 : w.declineError 0 <;>
              simp [Res.trace, Res.state, hd0, offerDecline_run, partnerToString, hp, St.init,
                hadm, isGiftTrade, readItemsToGive, readItemsToReceive, hg, hr, isNotify_false]
          | some recv =>
            cases hall : recv.all fun i => isValidGameItem i.appid with
            | false =>
              right
              have h1 := hv1 recv
              have h2 := hv2 recv
              unfold run handleNewOffer
              cases hd0 : w.declineError 0 <;> cases hd1 : w.declineError 1 <;>
                by_cases hlen : 0 < recv.length <;>
                simp [Res.trace, Res.state, hd0, hd1, offerDecline_run, partnerToString, hp,
                  St.init, hadm, isGiftTrade, readItemsToGive, readItemsToReceive, hg, hr,
                  everyValid_run, hall, hlen, isNotify_false, h2, or_imp, forall_and] <;>
                try exact h1
            | true =>
              by_cases hne : recv = []
              · right
                subst hne
                unfold run handleNewOffer
                cases hd0 : w.declineError 0 <;> cases hd1 : w.declineError 1 <;>
                  simp [Res.trace, Res.state, hd0, hd1, offerDecline_run, partnerToString, hp,
                    St.init, hadm, isGiftTrade, readItemsToGive, readItemsToReceive, hg, hr,
                    isNotify_false]
              · obtain ⟨hfail, hok⟩ := gift_run cfg w offer p recv hp hadm hg hr hne hall
                cases ha : w.acceptError with
                | some e =>
                  right
                  rw [hfail e ha]
                  refine ⟨by simp, ?_, fun _ => by simp⟩
                  intro ev hev
                  simp only [List.mem_cons, List.mem_append, List.not_mem_nil, or_false] at hev
                  rcases hev with h | h | h | h | h | h | h | h
                  · subst h; rfl
                  · subst h; rfl
                  · exact hv1 recv ev h
                  · subst h; rfl
                  · subst h; rfl
                  · subst h; rfl
                  · subst h; rfl
                  · subst h; rfl
                | none =>
                  left
                  obtain ⟨hcomp, htr⟩ := hok ha
                  refine ⟨rfl, hcomp, Event.log ("Received trade offer " ++ offer.id ++
                    " from " ++ p) :: Event.isGiftTrade ::
                    (validityChecks recv ++ (Event.acceptGiftTrade :: Event.accept ::
                      Event.log ("Gift trade " ++ offer.id ++ " accepted - receiving " ++
                        natToString recv.length ++ " items") ::
                      Event.postUserComment p "Thanks for the gift! 🎁" ::
                      (match w.commentError with
                        | some e => [Event.error "Error posting thank you comment:" e]
                        | none => []))), false, ?_, by simp, ?_, ?_, ?_, fun _ => by simp⟩
                  · rw [htr]; simp
                  · cases w.commentError <;> simp [hv3 recv]
                  · intro ev hev
                    simp only [List.mem_cons, List.mem_append] at hev
                    rcases hev with h | h | h | h | h | h | h | h
                    · subst h; rfl
                    · subst h; rfl
                    · exact hv1 recv ev h
                    · subst h; rfl
                    · subst h; rfl
                    · subst h; rfl
                    · subst h; rfl
                    · cases hc : w.commentError <;> simp [hc] at h
                      subst h; rfl
                  · simp [hp, hadm]


theorem notificationEvents_not_mem (cfg : Config) (w : World) (offer : Offer) (b : Bool)
    (k : Nat) (e : Event) (he : e.isReport = false) :
    e ∉ notificationEvents cfg w offer b k := by
  intro hmem
  rw [notificationEvents_isReport cfg w offer b k e hmem] at he
  exact Bool.noConfusion he

theorem quotes_length (w : World) (items : List Item) :
    ∀ k, (quotes w k items).length = items.length := by
  induction items with
  | nil => intro k; rfl
  | cons item rest ih => intro k; simp [quotes, ih]

theorem quotes_get (w : World) (items : List Item) :
    ∀ (k i : Nat), i < items.length →
      (quotes w k items)[i]? = some (quoteOf (w.priceResponse (k + i))) := by
  induction items with
  | nil => intro k i hi; simp at hi
  | cons item rest ih =>
    intro k i hi
    cases i with
    | zero => simp [quotes]
    | succ j =>
      simp only [quotes, List.getElem?_cons_succ]
      rw [ih (k + 1) j (by simpa using hi)]
      congr 3
      omega

theorem itemLines_get (w : World) (items : List Item) (k i : Nat) (item : Item)
    (h : items[i]? = some item) :
    (List.zipWith itemLine items (quotes w k items))[i]? =
      some (itemLine item (quoteOf (w.priceResponse (k + i)))) := by
  have hi : i < items.length := by
    by_contra hcon
    rw [List.getElem?_eq_none (by omega)] at h
    exact Option.noConfusion h
  rw [List.getElem?_zipWith, h, quotes_get w items k i hi]

theorem itemLine_ne_empty (item : Item) (price : String) : itemLine item price ≠ "" := by
  intro h
  have h1 := congrArg String.length h
  simp only [itemLine, String.length_append] at h1
  have h2 : "• ".length = 2 := by decide
  have h3 : "".length = 0 := rfl
  omega

theorem joinLines_ne_empty (l : String) (rest : List String) (hl : l ≠ "") :
    joinLines (l :: rest) ≠ "" := by
  intro h
  have h2 : (joinLines (l :: rest)).length = 0 := by rw [h]; rfl
  have h3 : l.length = 0 := by
    cases rest with
    | nil => simpa [joinLines] using h2
    | cons a r =>
      simp only [joinLines, String.length_append] at h2
      omega
  apply hl
  cases l with
  | mk data =>
    have h4 : data = [] := List.length_eq_zero.1 h3
    subst h4
    rfl


theorem itemsField_value (w : World) (items : List Item) (k : Nat) :
    orElse (some (joinLines (List.zipWith itemLine items (quotes w k items)))) "No items" =
      if items = [] then "No items"
      else joinLines (List.zipWith itemLine items (quotes w k items)) := by
  cases items with
  | nil => simp [quotes, joinLines, orElse]
  | cons item rest =>
    have hne := joinLines_ne_empty (itemLine item (quoteOf (w.priceResponse k)))
      (List.zipWith itemLine rest (quotes w (k + 1) rest)) (itemLine_ne_empty _ _)
    simp only [quotes, List.zipWith_cons_cons, orElse] at hne ⊢
    simp [hne]

/-- C11, amended: for an accepted offer, the item lines built by
`sendDiscordNotification` are as many as the received items; the `i`-th line
is `• <name or Unknown Item> (<game name>) - <price>` of the `i`-th item, the
price being the quote of the `i`-th request; and the posted embed has the
field `Items Received (<count>)` whose value is the lines joined by newlines,
or `No items` when `itemsToReceive` is empty. -/
theorem notification_item_lines (cfg : Config) (w : World) (offer : Offer) (p : String)
    (items : List Item) (hp : offer.partner = some p)
    (hr : offer.itemsToReceive = some items) (hacc : w.acceptError = none)
    (hin : Event.accept ∈ (run cfg w offer).trace) :
    (List.zipWith itemLine items (quotes w 0 items)).length = items.length ∧
    (∀ i item, items[i]? = some item →
      (List.zipWith itemLine items (quotes w 0 items))[i]? =
        some ("• " ++ orElse item.name "Unknown Item" ++ " (" ++ getGameName item.appid ++
          ") - " ++ quoteOf (w.priceResponse i))) ∧
    ∃ embed, Event.webhookPost cfg.webhookUrl
        { username := cfg.botName, avatar_url := cfg.botAvatar, embeds := [embed] } ∈
        (run cfg w offer).trace ∧
      embed.fields[1]? = some
        { name := "Items Received (" ++ natToString items.length ++ ")"
          value := if items = [] then "No items"
            else joinLines (List.zipWith itemLine items (quotes w 0 items)) } := by
  refine ⟨by simp [quotes_length], ?_, ?_⟩
  · intro i item hi
    have h := itemLines_get w items 0 i item hi
    simpa [itemLine] using h
  · rcases run_cases cfg w offer with ⟨_, _, pre, b, htr, _⟩ | ⟨_, _, hno⟩
    · refine ⟨buildEmbed w.now offer.id p b items
        (List.zipWith itemLine items (quotes w 0 items))
        (formatTotal ((quotes w (0 + items.length) items).foldl addPrice
          (JSNum.fin Dec.zero))), ?_, ?_⟩
      · rw [htr]
        simp [notificationEvents, hp, hr]
      · simp [buildEmbed, itemsField_value]
    · exact absurd hacc (hno hin)


theorem no_notify_of_forall (t : List Event) (h : ∀ e ∈ t, e.isNotify = false) :
    (∀ b, Event.sendDiscordNotification b ∉ t) ∧ (∀ a n, Event.priceRequest a n ∉ t) ∧
      (∀ u pl, Event.webhookPost u pl ∉ t) := by
  refine ⟨fun b hm => ?_, fun a n hm => ?_, fun u pl hm => ?_⟩
  · exact Bool.noConfusion (h _ hm)
  · exact Bool.noConfusion (h _ hm)
  · exact Bool.noConfusion (h _ hm)

theorem fallback_shape (t pre : List Event) (e : Err)
    (ht : t = pre ++ [Event.error "Error handling trade offer:" e, Event.decline])
    (hpre : ∀ ev ∈ pre, ev.isNotify = false) :
    (∃ pre e, t = pre ++ [Event.error "Error handling trade offer:" e, Event.decline]) ∧
      (∀ b, Event.sendDiscordNotification b ∉ t) ∧ (∀ a n, Event.priceRequest a n ∉ t) ∧
      (∀ u pl, Event.webhookPost u pl ∉ t) := by
  refine ⟨⟨pre, e, ht⟩, no_notify_of_forall t ?_⟩
  intro ev hev
  rw [ht] at hev
  simp only [List.mem_append, List.mem_cons, List.not_mem_nil, or_false] at hev
  rcases hev with h | h | h
  · exact hpre ev h
  · subst h; rfl
  · subst h; rfl

/-- C12: when reading the sender throws, or `accept` fails on the
administrator path, or reading an item list throws during `isGiftTrade`, or
`accept` fails on the gift path, the run ends in the catch block: its trace
ends with the line `Error handling trade offer:` and the call `decline`, and
holds no entry of a notification (no `sendDiscordNotification`, no price
request, no webhook post). -/
theorem handleNewOffer_exception_declines (cfg : Config) (w : World) (offer : Offer)
    (h : offer.partner = none ∨
      (offer.partner = some cfg.adminID ∧ w.acceptError ≠ none) ∨
      (∃ p, offer.partner = some p ∧ p ≠ cfg.adminID ∧ offer.itemsToGive = none) ∨
      (∃ p, offer.partner = some p ∧ p ≠ cfg.adminID ∧ offer.itemsToGive = some [] ∧
        offer.itemsToReceive = none) ∨
      (Event.acceptGiftTrade ∈ (run cfg w offer).trace ∧ w.acceptError ≠ none)) :
    (∃ pre e, (run cfg w offer).trace =
        pre ++ [Event.error "Error handling trade offer:" e, Event.decline]) ∧
      (∀ b, Event.sendDiscordNotification b ∉ (run cfg w offer).trace) ∧
      (∀ a n, Event.priceRequest a n ∉ (run cfg w offer).trace) ∧
      (∀ u pl, Event.webhookPost u pl ∉ (run cfg w offer).trace) := by
  rcases h with hp | ⟨hp, ha⟩ | ⟨p, hp, hna, hg⟩ | ⟨p, hp, hna, hg, hr⟩ | ⟨hgift, ha⟩
  · refine fallback_shape _ []
      "TypeError: cannot read properties of undefined (reading 'toString')" ?_ (by simp)
    unfold run handleNewOffer
    cases hd0 : w.declineError 0 <;>
      simp [Res.trace, Res.state, hd0, offerDecline_run, partnerToString, hp, St.init]
  · cases hae : w.acceptError with
    | none => exact absurd hae ha
    | some e =>
      refine fallback_shape _ [Event.log ("Received trade offer " ++ offer.id ++ " from " ++
        cfg.adminID), Event.accept] e ?_ (by simp [isNotify_false])
      unfold run handleNewOffer
      cases hd0 : w.declineError 0 <;>
        simp [Res.trace, Res.state, hd0, offerDecline_run, offerAccept_run, partnerToString,
          hp, St.init, hae]
  · refine fallback_shape _ [Event.log ("Received trade offer " ++ offer.id ++ " from " ++ p),
      Event.isGiftTrade]
      "TypeError: cannot read properties of undefined (itemsToGive)" ?_ (by simp [isNotify_false])
    unfold run handleNewOffer
    cases hd0 : w.declineError 0 <;>
      simp [Res.trace, Res.state, hd0, offerDecline_run, partnerToString, hp, St.init,
        hna, isGiftTrade, readItemsToGive, hg]
  · refine fallback_shape _ [Event.log ("Received trade offer " ++ offer.id ++ " from " ++ p),
      Event.isGiftTrade]
      "TypeError: cannot read properties of undefined (itemsToReceive)" ?_ (by simp [isNotify_false])
    unfold run handleNewOffer
    cases hd0 : w.declineError 0 <;>
      simp [Res.trace, Res.state, hd0, offerDecline_run, partnerToString, hp, St.init,
        hna, isGiftTrade, readItemsToGive, readItemsToReceive, hg, hr]
  · obtain ⟨p, recv, hp, hna, hg, hr, hne, hall⟩ := gift_shape cfg w offer hgift
    cases hae : w.acceptError with
    | none => exact absurd hae ha
    | some e =>
      have htr := (gift_run cfg w offer p recv hp hna hg hr hne hall).1 e hae
      refine fallback_shape _ (Event.log ("Received trade offer " ++ offer.id ++ " from " ++ p)
        :: Event.isGiftTrade :: (validityChecks recv ++ [Event.acceptGiftTrade, Event.accept,
          Event.error "Error accepting gift trade:" e])) e ?_ ?_
      · rw [htr]; simp
      · have hv := (validityChecks_props recv).1
        simp [isNotify_false, or_imp, forall_and]
        exact hv

/-- C14: whatever the comment, the price requests and the webhook answer,
once `accept` has been called and has succeeded the handler never calls
`decline`; it completes and goes on to the notification. -/
theorem accepted_never_declined (cfg : Config) (w : World) (offer : Offer)
    (hacc : w.acceptError = none) (hin : Event.accept ∈ (run cfg w offer).trace) :
    Event.decline ∉ (run cfg w offer).trace ∧ (run cfg w offer).completed = true ∧
      ∃ b, Event.sendDiscordNotification b ∈ (run cfg w offer).trace := by
  rcases run_cases cfg w offer with ⟨_, hcomp, pre, b, htr, _, hdec, _⟩ | ⟨_, _, hno⟩
  · refine ⟨?_, hcomp, b, by rw [htr]; simp⟩
    rw [htr]
    have h1 := notificationEvents_not_mem cfg w offer b 0 Event.decline rfl
    simp [hdec, h1]
  · exact absurd hacc (hno hin)

/-- C14 at a gift in a world where the comment, every price request and the
webhook fail. -/
theorem accepted_never_declined_witness :
    flakyWorld.commentError ≠ none ∧ flakyWorld.webhookError ≠ none ∧
      Event.decline ∉ (run config flakyWorld giftOffer).trace ∧
      (run config flakyWorld giftOffer).completed = true :=
  ⟨by decide, by decide,
    (accepted_never_declined config flakyWorld giftOffer rfl (by decide)).1,
    (accepted_never_declined config flakyWorld giftOffer rfl (by decide)).2.1⟩

/-- C13: for an offer of a sender other than the administrator that is not
a gift or holds an item of a game that is not accepted, the handler declines
and its trace holds no `sendDiscordNotification`, no price request and no
webhook post; and whenever a trace holds an entry of a notification,
`accept` succeeded, `decline` was never called, and `accept` comes before the
entry into `sendDiscordNotification`, which is the administrator's exactly
for the administrator and otherwise follows `acceptGiftTrade`. -/
theorem notification_only_after_accept (cfg : Config) (w : World) (offer : Offer) :
    (∀ (p : String) (give recv : List Item), offer.partner = some p → p ≠ cfg.adminID →
      offer.itemsToGive = some give → offer.itemsToReceive = some recv →
      (give ≠ [] ∨ recv = [] ∨
        ∃ item ∈ recv, item.appid ≠ 730 ∧ item.appid ≠ 570 ∧ item.appid ≠ 252490) →
      Event.decline ∈ (run cfg w offer).trace ∧
      (∀ b, Event.sendDiscordNotification b ∉ (run cfg w offer).trace) ∧
      (∀ a n, Event.priceRequest a n ∉ (run cfg w offer).trace) ∧
      (∀ u pl, Event.webhookPost u pl ∉ (run cfg w offer).trace)) ∧
    (∀ e ∈ (run cfg w offer).trace, e.isNotify = true →
      w.acceptError = none ∧ Event.decline ∉ (run cfg w offer).trace ∧
      ∃ pre b post, (run cfg w offer).trace =
          pre ++ Event.sendDiscordNotification b :: post ∧
        Event.accept ∈ pre ∧ (∀ ev ∈ pre, ev.isNotify = false) ∧
        (b = true ↔ offer.partner = some cfg.adminID) ∧
        (b = false → Event.acceptGiftTrade ∈ pre)) := by
  constructor
  · intro p give recv hp hna hg hr hshape
    rcases run_cases cfg w offer with ⟨_, _, pre, b, htr, _, _, _, hb, hgift⟩ | ⟨hdec, hno, _⟩
    · exfalso
      cases b with
      | true =>
        have hadm := hb.1 rfl
        rw [hp] at hadm
        exact hna (Option.some.inj hadm)
      | false =>
        have hmem : Event.acceptGiftTrade ∈ (run cfg w offer).trace := by
          rw [htr]; simp [hgift rfl]
        obtain ⟨p1, recv1, _, _, hg1, hr1, hne1, hall1⟩ := gift_shape cfg w offer hmem
        rw [hg] at hg1
        rw [hr] at hr1
        have e1 : give = [] := Option.some.inj hg1
        have e2 : recv = recv1 := Option.some.inj hr1
        subst e2
        rcases hshape with h | h | ⟨item, hmem, h1, h2, h3⟩
        · exact h e1
        · exact hne1 h
        · rw [List.all_eq_true] at hall1
          have := (isValidGameItem_iff item.appid).1 (hall1 item hmem)
          omega
    · exact ⟨hdec, no_notify_of_forall _ hno⟩
  · intro e he hnot
    rcases run_cases cfg w offer with ⟨hacc, _, pre, b, htr, hin, hdec, hpre, hb, hgift⟩ |
      ⟨_, hno, _⟩
    · refine ⟨hacc, ?_, pre, b, _, htr, hin, hpre, hb, hgift⟩
      rw [htr]
      have h1 := notificationEvents_not_mem cfg w offer b 0 Event.decline rfl
      simp [hdec, h1]
    · rw [hno e he] at hnot
      exact Bool.noConfusion hnot


theorem getGameName_unknown (appid : Nat) (h : isValidGameItem appid = false) :
    getGameName appid = "Unknown Game" := by
  have hn : ¬ (appid = 730 ∨ appid = 570 ∨ appid = 252490) := by
    rw [← isValidGameItem_iff, h]; simp
  have e1 : (730 == appid) = false := by rw [beq_eq_false_iff_ne]; omega
  have e2 : (570 == appid) = false := by rw [beq_eq_false_iff_ne]; omega
  have e3 : (252490 == appid) = false := by rw [beq_eq_false_iff_ne]; omega
  simp [getGameName, acceptedGames, List.find?, List.lookup, e1, e2, e3, orElse]

theorem getGameName_known (appid : Nat) (h : isValidGameItem appid = true) :
    getGameName appid = "CSGO" ∨ getGameName appid = "DOTA2" ∨ getGameName appid = "RUST" := by
  rcases (isValidGameItem_iff appid).1 h with h | h | h
  · subst h; exact Or.inl (by decide)
  · subst h; exact Or.inr (Or.inl (by decide))
  · subst h; exact Or.inr (Or.inr (by decide))

theorem mem_itemLines (w : World) (items : List Item) :
    ∀ (k : Nat) (line : String), line ∈ List.zipWith itemLine items (quotes w k items) →
      ∃ item ∈ items, ∃ price, line = itemLine item price := by
  induction items with
  | nil => intro k line h; simp [quotes] at h
  | cons item rest ih =>
    intro k line h
    simp only [quotes, List.zipWith_cons_cons, List.mem_cons] at h
    rcases h with h | h
    · exact ⟨item, List.mem_cons_self _ _, _, h⟩
    · obtain ⟨it, hit, price, hl⟩ := ih (k + 1) line h
      exact ⟨it, List.mem_cons_of_mem _ hit, price, hl⟩

/-- C15: `isValidGameItem appid` holds exactly when `getGameName appid` is
not `Unknown Game`; and for an offer accepted as a gift, the embed posted is
built from item lines each of which is the line of a received item whose game
name is `CSGO`, `DOTA2` or `RUST`, not `Unknown Game`. -/
theorem isValidGameItem_iff_known_game :
    (∀ appid, isValidGameItem appid = true ↔ getGameName appid ≠ "Unknown Game") ∧
    (∀ (cfg : Config) (w : World) (offer : Offer),
      Event.acceptGiftTrade ∈ (run cfg w offer).trace → w.acceptError = none →
      ∃ p recv, offer.partner = some p ∧ offer.itemsToReceive = some recv ∧
        Event.webhookPost cfg.webhookUrl
          { username := cfg.botName, avatar_url := cfg.botAvatar,
            embeds := [buildEmbed w.now offer.id p false recv
              (List.zipWith itemLine recv (quotes w 0 recv))
              (formatTotal ((quotes w recv.length recv).foldl addPrice
                (JSNum.fin Dec.zero)))] } ∈ (run cfg w offer).trace ∧
        ∀ line ∈ List.zipWith itemLine recv (quotes w 0 recv),
          ∃ item ∈ recv, ∃ price,
            line = "• " ++ orElse item.name "Unknown Item" ++ " (" ++
              getGameName item.appid ++ ") - " ++ price ∧
            getGameName item.appid ≠ "Unknown Game" ∧
            (getGameName item.appid = "CSGO" ∨ getGameName item.appid = "DOTA2" ∨
              getGameName item.appid = "RUST")) := by
  have hiff : ∀ appid, isValidGameItem appid = true ↔ getGameName appid ≠ "Unknown Game" := by
    intro appid
    constructor
    · intro h
      rcases getGameName_known appid h with h1 | h1 | h1 <;> rw [h1] <;> decide
    · intro h
      cases hv : isValidGameItem appid with
      | true => rfl
      | false => exact absurd (getGameName_unknown appid hv) h
  refine ⟨hiff, ?_⟩
  intro cfg w offer hgift hacc
  obtain ⟨p, recv, hp, hna, hg, hr, hne, hall⟩ := gift_shape cfg w offer hgift
  refine ⟨p, recv, hp, hr, ?_, ?_⟩
  · rw [((gift_run cfg w offer p recv hp hna hg hr hne hall).2 hacc).2]
    simp [notificationEvents, hp, hr]
  · intro line hline
    obtain ⟨item, hit, price, hl⟩ := mem_itemLines w recv 0 line hline
    rw [List.all_eq_true] at hall
    have hv : isValidGameItem item.appid = true := by simpa using hall item hit
    exact ⟨item, hit, price, hl, (hiff _).1 hv, getGameName_known _ hv⟩

/-- C15 at the gift of one item of game 730. -/
theorem isValidGameItem_iff_known_game_witness :
    Event.acceptGiftTrade ∈ (run config calmWorld giftOffer).trace ∧
      ∃ p recv, giftOffer.partner = some p ∧ giftOffer.itemsToReceive = some recv ∧
        ∀ line ∈ List.zipWith itemLine recv (quotes calmWorld 0 recv),
          ∃ item ∈ recv, getGameName item.appid ≠ "Unknown Game" := by
  refine ⟨by decide, ?_⟩
  obtain ⟨p, recv, hp, hr, _, hl⟩ :=
    isValidGameItem_iff_known_game.2 config calmWorld giftOffer (by decide) rfl
  refine ⟨p, recv, hp, hr, ?_⟩
  intro line hline
  obtain ⟨item, hit, _, _, hk, _⟩ := hl line hline
  exact ⟨item, hit, hk⟩

/-- C11, refuted as stated: the administrator's offer that receives no item
is accepted, and the field `Items Received (0)` of its notification shows
`No items`, which is not the (empty) join of its item lines. -/
theorem withdraw_offer_items_field :
    (run config calmWorld withdrawOffer).trace =
      [Event.log "Received trade offer 1005 from your_steam_admin_id", Event.accept,
        Event.log "Admin trade 1005 accepted automatically",
        Event.sendDiscordNotification true,
        Event.webhookPost "your_discord_webhook_url"
          { username := "Steam Trade Bot", avatar_url := "url_to_bot_avatar",
            embeds := [
              { title := "👑 Admin Trade Received!"
                color := 15844367
                fields := [
                  { name := "Sender Information"
                    value := "Steam ID: your_steam_admin_id\nProfile: [Click Here](https://steamcommunity.com/profiles/your_steam_admin_id)\nStatus: Admin" },
                  { name := "Items Received (0)", value := "No items" },
                  { name := "Total Value", value := "Unable to calculate total" }]
                timestamp := "2024-01-01T00:00:00.000Z"
                footer := "Trade ID: 1005"
                thumbnail := none }] },
        Event.log "Discord notification sent successfully"] ∧
      joinLines (List.zipWith itemLine ([] : List Item) (quotes calmWorld 0 [])) = "" ∧
      "No items" ≠ "" := by
  refine ⟨by decide, by decide, by decide⟩

/-- C11, amended, at the gift of one item of game 730: exactly one item
line. -/
theorem notification_item_lines_witness :
    List.zipWith itemLine [itemA] (quotes calmWorld 0 [itemA]) =
        ["• AK-47 | Redline (CSGO) - $1.00"] ∧
      (List.zipWith itemLine [itemA] (quotes calmWorld 0 [itemA])).length = 1 :=
  ⟨by decide,
    (notification_item_lines config calmWorld giftOffer "user123" [itemA] rfl rfl rfl
      (by decide)).1⟩

/-- C12 at a gift whose `accept` fails. -/
theorem handleNewOffer_exception_declines_witness :
    Event.acceptGiftTrade ∈ (run config stormWorld giftOffer).trace ∧
      (∀ b, Event.sendDiscordNotification b ∉ (run config stormWorld giftOffer).trace) :=
  ⟨by decide,
    (handleNewOffer_exception_declines config stormWorld giftOffer
      (Or.inr (Or.inr (Or.inr (Or.inr ⟨by decide, by decide⟩))))).2.1⟩

/-- C13 at an exchange and at a gift of an item of appid 9999. -/
theorem notification_only_after_accept_witness :
    (∀ b, Event.sendDiscordNotification b ∉ (run config calmWorld swapOffer).trace) ∧
      (∀ a n, Event.priceRequest a n ∉ (run config calmWorld unsupportedOffer).trace) :=
  ⟨((notification_only_after_accept config calmWorld swapOffer).1 "user123" [itemX] [itemA]
      rfl (by decide) rfl rfl (Or.inl (by decide))).2.1,
    ((notification_only_after_accept config calmWorld unsupportedOffer).1 "user123" []
      [item9999] rfl (by decide) rfl rfl
      (Or.inr (Or.inr ⟨item9999, by simp, by decide⟩))).2.2.1⟩

/-! ## The marker of `calculateTotalValue` against the usable quote of the specification -/

/-- The usable quote of the specification on sample texts. -/
theorem specCleanPositiveDecimal_samples :
    specCleanPositiveDecimal "$12.34" = true ∧ specCleanPositiveDecimal "$1.00" = true ∧
      specCleanPositiveDecimal "$7" = true ∧
      specCleanPositiveDecimal "$0.00" = false ∧ specCleanPositiveDecimal "-$5.00" = false ∧
      specCleanPositiveDecimal "$1,234.56" = false ∧ specCleanPositiveDecimal "$12abc" = false ∧
      specCleanPositiveDecimal "$12." = false ∧ specCleanPositiveDecimal "$.5" = false ∧
      specCleanPositiveDecimal "Price unavailable" = false ∧
      specCleanPositiveDecimal "No price data" = false := by
  decide

/-- C7, the failing inputs: two items both quoted `$1,234.56`, and one item
quoted `$12abc`.  No quote is a clean positive decimal, so no item contributes
a usable price, yet `calculateTotalValue` returns `$2.00` and `$12.00` and not
`'Unable to calculate total'`. -/
theorem calculateTotalValue_marker_missed :
    quotes thousandsWorld 0 [itemA, itemX] = ["$1,234.56", "$1,234.56"] ∧
      (∀ q ∈ quotes thousandsWorld 0 [itemA, itemX], specCleanPositiveDecimal q = false) ∧
      (calculateTotalValue thousandsWorld [itemA, itemX] St.init).returned = some "$2.00" ∧
      quotes suffixWorld 0 [itemA] = ["$12abc"] ∧
      (∀ q ∈ quotes suffixWorld 0 [itemA], specCleanPositiveDecimal q = false) ∧
      (calculateTotalValue suffixWorld [itemA] St.init).returned = some "$12.00" := by
  refine ⟨rfl, by decide, by decide, rfl, by decide, by decide⟩

/-- A total that is not above zero stays so after a quote that the filter of
the loop drops or that parses to a number that is not above zero. -/
theorem addPrice_nonpositive (d : Dec) (q : String) (hd : d.num ≤ 0)
    (h : q = "Price unavailable" ∨ q = "No price data" ∨
      (parseFloat (replaceDollar q)).isNaN = true ∨
      ∃ e : Dec, parseFloat (replaceDollar q) = JSNum.fin e ∧ e.num ≤ 0) :
    ∃ d1 : Dec, addPrice (JSNum.fin d) q = JSNum.fin d1 ∧ d1.num ≤ 0 := by
  rcases h with h | h | h | ⟨e, he, hle⟩
  · exact ⟨d, addPrice_unusable _ _ (Or.inl h), hd⟩
  · exact ⟨d, addPrice_unusable _ _ (Or.inr (Or.inl h)), hd⟩
  · exact ⟨d, addPrice_unusable _ _ (Or.inr (Or.inr h)), hd⟩
  · by_cases hq : q ≠ "Price unavailable" ∧ q ≠ "No price data"
    · refine ⟨d.add e, ?_, ?_⟩
      · simp [addPrice, hq, he, JSNum.isNaN, JSNum.add]
      · simp only [Dec.add]
        have h1 : d.num * 10 ^ (max d.scale e.scale - d.scale) ≤ 0 :=
          mul_nonpos_of_nonpos_of_nonneg hd (by positivity)
        have h2 : e.num * 10 ^ (max d.scale e.scale - e.scale) ≤ 0 :=
          mul_nonpos_of_nonpos_of_nonneg hle (by positivity)
        omega
    · refine ⟨d, ?_, hd⟩
      simp only [addPrice, if_neg hq]

/-- The same over a list of quotes. -/
theorem foldl_addPrice_nonpositive (qs : List String) :
    ∀ (d : Dec), d.num ≤ 0 →
      (∀ q ∈ qs, q = "Price unavailable" ∨ q = "No price data" ∨
        (parseFloat (replaceDollar q)).isNaN = true ∨
        ∃ e : Dec, parseFloat (replaceDollar q) = JSNum.fin e ∧ e.num ≤ 0) →
      ∃ d1 : Dec, qs.foldl addPrice (JSNum.fin d) = JSNum.fin d1 ∧ d1.num ≤ 0 := by
  induction qs with
  | nil => intro d hd _; exact ⟨d, rfl, hd⟩
  | cons q rest ih =>
    intro d hd h
    obtain ⟨d1, h1, hle⟩ := addPrice_nonpositive d q hd (h q (List.mem_cons_self _ _))
    rw [List.foldl_cons, h1]
    exact ih d1 hle (fun q1 hq1 => h q1 (List.mem_cons_of_mem _ hq1))

/-- Where the marker is returned: when every quote is dropped by the filter
of the loop or parses to a number that is not above zero. -/
theorem calculateTotalValue_marker (w : World) (items : List Item) (s : St)
    (h : ∀ q ∈ quotes w s.lookups items, q = "Price unavailable" ∨ q = "No price data" ∨
      (parseFloat (replaceDollar q)).isNaN = true ∨
      ∃ e : Dec, parseFloat (replaceDollar q) = JSNum.fin e ∧ e.num ≤ 0) :
    (calculateTotalValue w items s).returned = some "Unable to calculate total" := by
  obtain ⟨d1, h1, hle⟩ := foldl_addPrice_nonpositive _ Dec.zero (by simp [Dec.zero]) h
  rw [calculateTotalValue_run]
  simp only [Res.returned, h1, formatTotal, JSNum.gtZero]
  have : ¬ (0 < d1.num) := by omega
  simp [this]

end TradeBuddy
